import Mathlib

/-!
# httpcpp: message framing, routing and connection draining

A shallow embedding of `httpcpp.cpp`.

* `std::string` is a `List Char`; `size_t` is a natural number below `2 ^ 64`
  and every `size_t` operation of the source is reduced modulo `2 ^ 64`;
  `int` is an integer in the 32-bit two's complement range.
* `std::string::substr` raises `std::out_of_range` when the start position is
  past the end, so the parsers return `Except Exn _`; a `NULL` result is `none`.
* `atoi` is the one of glibc, `(int) strtol(s, NULL, 10)`: a value outside the
  range of `int` keeps its low 32 bits.
* Pointers to handler objects are addresses, with `NULL` the address 0.
* `read`, `write` and `accept` are given by an oracle, the result of the `k`-th
  call; a loop of the source takes a bound on its iterations and returns `none`
  when the bound does not reach the `break`.
-/

namespace Httpcpp

/-! ## Strings and machine integers -/

/-- A `std::string`: a sequence of `char`. -/
abbrev Str := List Char

/-- Number of values of `size_t` (64-bit). -/
def SIZE : Nat := 2 ^ 64

/-- The constant `std::string::npos`, the largest `size_t`. -/
def npos : Nat := 2 ^ 64 - 1

/-- Exceptions the modelled code can raise. -/
inductive Exn where
  | out_of_range
  | runtime_error (what : String)
  deriving DecidableEq, Repr

/-- Offset of the first occurrence of `needle` in a text, if there is one. -/
def findAt (needle : Str) : Str → Option Nat
  | [] => if needle.isPrefixOf [] then some 0 else none
  | c :: cs =>
    if needle.isPrefixOf (c :: cs) then some 0 else (findAt needle cs).map (· + 1)

/-- The call `s.find(needle, pos)`: the first position at or after `pos` where
`needle` occurs, `npos` when there is none or `pos` is past the end. -/
def find (s needle : Str) (pos : Nat) : Nat :=
  if pos > s.length then npos
  else match findAt needle (s.drop pos) with
    | some i => pos + i
    | none => npos

/-- The call `s.substr(pos, n)`: raises when `pos > s.size()`, else the at most
`n` characters from `pos` on. -/
def substr (s : Str) (pos n : Nat) : Except Exn Str :=
  if pos > s.length then .error .out_of_range else .ok ((s.drop pos).take n)

/-- Unsigned addition of two `size_t` values. -/
def addSize (a b : Nat) : Nat := (a + b) % SIZE

/-- Unsigned subtraction of two `size_t` values. -/
def subSize (a b : Nat) : Nat := (a + SIZE - b % SIZE) % SIZE

/-- Conversion of an `int` to `size_t`. -/
def toSize (x : Int) : Nat := (x % (2 ^ 64 : Int)).toNat

/-- Conversion of a `long` to `int`: the low 32 bits, read as two's complement. -/
def toInt32 (x : Int) : Int := (x + 2 ^ 31) % 2 ^ 32 - 2 ^ 31

/-- The C predicate `isspace` in the "C" locale. -/
def isspace (c : Char) : Bool :=
  c == ' ' || c == '\t' || c == '\n' || c == '\x0b' || c == '\x0c' || c == '\r'

/-- Value of the leading run of decimal digits, continuing from `acc`. -/
def digitsValue (acc : Nat) : Str → Nat
  | [] => acc
  | c :: cs => if c.isDigit then digitsValue (acc * 10 + (c.toNat - 48)) cs else acc

/-- The call `strtol(s, NULL, 10)`: skips white space, reads an optional sign
and the leading digits, and saturates at the range of a 64-bit `long`. -/
def strtol (s : Str) : Int :=
  match s.dropWhile isspace with
  | '-' :: u => if digitsValue 0 u > 2 ^ 63 then -(2 ^ 63) else -(digitsValue 0 u : Int)
  | '+' :: u => if digitsValue 0 u ≥ 2 ^ 63 then 2 ^ 63 - 1 else (digitsValue 0 u : Int)
  | u => if digitsValue 0 u ≥ 2 ^ 63 then 2 ^ 63 - 1 else (digitsValue 0 u : Int)

/-- The call `atoi(s)`, which is `(int) strtol(s, NULL, 10)`. The text ends at
the first character that is not part of the number, hence also at a NUL. -/
def atoi (s : Str) : Int := toInt32 (strtol s)

/-- The output of `stream << n` for an unsigned `n`: its decimal digits. -/
def decimal (n : Nat) : Str := Nat.toDigits 10 n

/-! ## HttpRequest -/

/-- The class `HttpRequest`. -/
structure HttpRequest where
  method : Str
  path : Str
  body : Str
  deriving DecidableEq, Repr

/-- The function `HttpRequest::from_sequence`. The two-argument constructor call
of the `GET` branch leaves the body at its default, the empty string. -/
def HttpRequest.from_sequence (sequence : Str) : Except Exn (Option HttpRequest) :=
  let p0 := find sequence "\r\n\r\n".toList 0
  if p0 ≠ npos then
    let p0 := addSize p0 4
    let p1 := find sequence " ".toList 0
    match substr sequence 0 p1 with
    | .error e => .error e
    | .ok method =>
      if method = "GET".toList then
        let p1 := addSize p1 1
        let p2 := find sequence " ".toList p1
        match substr sequence p1 (subSize p2 p1) with
        | .error e => .error e
        | .ok path => .ok (some ⟨method, path, []⟩)
      else if method = "POST".toList then
        let p3 := addSize (find sequence "Content-Length:".toList 0) 15
        let p4 := find sequence "\r\n".toList p3
        match substr sequence p3 (subSize p4 p3) with
        | .error e => .error e
        | .ok text =>
          let length := atoi text
          if sequence.length ≥ addSize p0 (toSize length) then
            let p1 := addSize p1 1
            let p2 := find sequence " ".toList p1
            match substr sequence p1 (subSize p2 p1) with
            | .error e => .error e
            | .ok path =>
              match substr sequence p0 (toSize length) with
              | .error e => .error e
              | .ok body => .ok (some ⟨method, path, body⟩)
          else .ok none
      else .ok none
  else .ok none

/-! ## HttpResponse -/

/-- The class `HttpResponse`. -/
structure HttpResponse where
  code : Int
  body : Str
  deriving DecidableEq, Repr

/-- The function `HttpResponse::to_sequence`. -/
def HttpResponse.to_sequence (self : HttpResponse) : Str :=
  let packet : Str :=
    if self.code = 200 then "HTTP/1.0 200 OK\r\n".toList
    else if self.code = 204 then "HTTP/1.0 204 No Content\r\n".toList
    else if self.code = 404 then "HTTP/1.0 404 Not Found\r\n".toList
    else if self.code = 405 then "HTTP/1.0 405 Method Not Allowed\r\n".toList
    else "HTTP/1.0 500 Internal Server Error\r\n".toList
  let packet := packet ++ "Content-Length: ".toList ++ decimal self.body.length
    ++ "\r\n\r\n".toList
  packet ++ self.body

/-- The function `HttpResponse::from_sequence`. -/
def HttpResponse.from_sequence (sequence : Str) : Except Exn (Option HttpResponse) :=
  let p0 := find sequence "\r\n\r\n".toList 0
  if p0 ≠ npos then
    let p0 := addSize p0 4
    let p1 := addSize (find sequence "Content-Length:".toList 0) 15
    let p2 := find sequence "\r\n".toList p1
    match substr sequence p1 (subSize p2 p1) with
    | .error e => .error e
    | .ok text =>
      let length := atoi text
      if sequence.length ≥ addSize p0 (toSize length) then
        let p1 := find sequence " ".toList 0
        let p1 := addSize p1 1
        let p2 := find sequence " ".toList p1
        match substr sequence p1 (subSize p2 p1) with
        | .error e => .error e
        | .ok codeText =>
          let code := atoi codeText
          match substr sequence p0 (toSize length) with
          | .error e => .error e
          | .ok body => .ok (some ⟨code, body⟩)
      else .ok none
  else .ok none

/-! ## Definitions used in the statements and proofs -/

/-- Equality of results is decidable when it is for values and exceptions. -/
instance decEqExcept {ε α : Type} [DecidableEq ε] [DecidableEq α] : DecidableEq (Except ε α)
  | .ok a, .ok b =>
    if h : a = b then isTrue (by rw [h]) else isFalse (by intro h2; cases h2; exact h rfl)
  | .error a, .error b =>
    if h : a = b then isTrue (by rw [h]) else isFalse (by intro h2; cases h2; exact h rfl)
  | .ok _, .error _ => isFalse (by intro h; cases h)
  | .error _, .ok _ => isFalse (by intro h; cases h)

/-- No occurrence of `needle` can start inside `pre`, whatever text follows it:
every non-empty suffix of `pre` differs from `needle` at a common position. -/
def clashes (needle : Str) : Str → Bool
  | [] => true
  | c :: cs =>
    !(needle.isPrefixOf (c :: cs)) && !((c :: cs).isPrefixOf needle) && clashes needle cs

/-- Status text of the response wire format as the specification words it: the
reason phrases of the four mapped codes, and `500 Internal Server Error` for
every other code. -/
def statusText (c : Int) : Str :=
  match ([(200, "200 OK"), (204, "204 No Content"), (404, "404 Not Found"),
      (405, "405 Method Not Allowed")] : List (Int × String)).lookup c with
  | some text => text.toList
  | none => "500 Internal Server Error".toList

/-- The packet that `AsyncHttpClient::fetch` builds and stores as the write
buffer of the new descriptor. -/
def fetch_packet (method path body : Str) : Str :=
  method ++ " ".toList ++ path ++ " HTTP/1.0\r\n".toList ++ "Content-Length: ".toList
    ++ decimal body.length ++ "\r\n\r\n".toList ++ body

/-- The text that `from_sequence` hands to `atoi`: from the end of the first
`Content-Length:` of the sequence to the next line end, or to the end of the
sequence when no line end follows. -/
def lengthText (s : Str) : Str :=
  let p := find s "Content-Length:".toList 0 + 15
  (s.drop p).take (find s "\r\n".toList p - p)

/-- Whether a text starts with a decimal digit. -/
def startsWithDigit : Str → Bool
  | [] => false
  | c :: _ => c.isDigit

/-- A header value that holds no number: after white space and an optional
sign, no decimal digit follows. -/
def noNumber (text : Str) : Bool :=
  match text.dropWhile isspace with
  | '-' :: u => !startsWithDigit u
  | '+' :: u => !startsWithDigit u
  | u => !startsWithDigit u

/-! ## Descriptors, system calls and the event loop -/

/-- The `errno` value for "try again"; `EWOULDBLOCK` is the same number. -/
def EAGAIN : Int := 11

/-- The `errno` value `epoll_ctl` reports for a descriptor that is not registered. -/
def ENOENT : Int := 2

/-- The null pointer. Pointers to handler objects are addresses. -/
def NULL : Nat := 0

/-- Result of one `write` or `accept` call: the returned number, and the value
the call stores in `errno` when it stores one. A call that does not fail leaves
`errno` as it was. -/
structure SysResult where
  n : Int
  errno : Option Int
  deriving DecidableEq, Repr

/-- Result of one `read` call. The field `text` is what `append(buffer)` then
copies: the characters of the local array up to its first NUL. -/
structure ReadResult where
  n : Int
  errno : Option Int
  text : Str
  deriving DecidableEq, Repr

/-- State of the process outside the objects: `errno`, the descriptors that
were closed, the bytes each descriptor has accepted from `write`, and the
calls of `on_receive` made so far (handler address and response). -/
structure Sys where
  errno : Int
  closed : List Int
  sent : Int → Str
  received : List (Nat × HttpResponse)

/-- A `std::map` from descriptors to values. -/
abbrev FdMap (α : Type) := Int → Option α

/-- The call `m.erase(fd)`. -/
def FdMap.erase {α : Type} (m : FdMap α) (fd : Int) : FdMap α :=
  fun k => if k = fd then none else m k

/-- The assignment `m[fd] = v`. -/
def FdMap.set {α : Type} (m : FdMap α) (fd : Int) (v : α) : FdMap α :=
  fun k => if k = fd then some v else m k

/-- The map after an access `m[fd]`, which inserts an empty string when the
key is absent. -/
def FdMap.touch (m : FdMap Str) (fd : Int) : FdMap Str :=
  fun k => if k = fd then some ((m fd).getD []) else m k

/-- The value of the access `m[fd]`. -/
def FdMap.index (m : FdMap Str) (fd : Int) : Str := (m fd).getD []

/-- The call `s.substr(pos)`, which runs to the end of the string. -/
def substrFrom (s : Str) (pos : Nat) : Except Exn Str :=
  if pos > s.length then .error .out_of_range else .ok (s.drop pos)

/-- The class `IOLoop`: the handler registered for each descriptor, and the
interest set of the epoll instance (`true` for `EPOLLIN | EPOLLET`, `false`
for `EPOLLOUT | EPOLLET`). -/
structure IOLoop where
  handlers : FdMap Nat
  events : FdMap Bool

/-- The function `IOLoop::unset_handler`, on an open descriptor: `epoll_ctl`
with `EPOLL_CTL_DEL` fails only with `ENOENT`, for a descriptor that is not in
the interest set, and the function goes on in that case. Returns the previous
handler, `NULL` when there was none. -/
def IOLoop.unset_handler (self : IOLoop) (sys : Sys) (fd : Int) : IOLoop × Sys × Nat :=
  let sys := if (self.events fd).isNone then { sys with errno := ENOENT } else sys
  let self := { self with events := self.events.erase fd }
  match self.handlers fd with
  | none => (self, sys, NULL)
  | some found => ({ self with handlers := self.handlers.erase fd }, sys, found)

/-- The function `IOLoop::set_handler`, on an open descriptor, for which the
two `fcntl` calls and `EPOLL_CTL_ADD` after the removal succeed. -/
def IOLoop.set_handler (self : IOLoop) (sys : Sys) (fd : Int) (handler : Nat) (read : Bool) :
    IOLoop × Sys × Nat :=
  let (self, sys, previous) := self.unset_handler sys fd
  ({ handlers := self.handlers.set fd handler, events := self.events.set fd read }, sys,
    previous)

/-- The effect of `close(fd)`. -/
def Sys.close (sys : Sys) (fd : Int) : Sys := { sys with closed := fd :: sys.closed }

/-- The effect of a `write` call on the process state: `errno` as the call
leaves it, and the bytes the descriptor accepted. -/
def Sys.afterWrite (sys : Sys) (fd : Int) (data : Str) (r : SysResult) : Sys :=
  { sys with
    errno := r.errno.getD sys.errno
    sent := fun k => if k = fd ∧ r.n > 0 then sys.sent fd ++ data.take r.n.toNat
      else sys.sent k }

/-! ## Request handlers and routing -/

/-- The class `HttpRequestHandler` with its two virtual functions, which
return a pointer to a response (`none` for `NULL`). -/
structure HttpRequestHandler where
  get : HttpRequest → List Str → Option HttpResponse
  post : HttpRequest → List Str → Option HttpResponse

/-- The base class implementation: both functions answer 405 with the default,
empty body. -/
def HttpRequestHandler.base : HttpRequestHandler where
  get := fun _ _ => some ⟨405, []⟩
  post := fun _ _ => some ⟨405, []⟩

/-- The POSIX regex calls, as far as the server uses them: whether `regcomp`
accepts a pattern, and the `pmatch` array `regexec` fills when the compiled
pattern matches a path (`none` when it does not match). With `REG_NOSUB` the
same match is reported without the array. -/
structure Regex where
  regcomp : Str → Bool
  regexec : Str → Str → Option (List (Int × Int))

/-- The class `AsyncHttpServer`; `addr` is the address of the object. -/
structure AsyncHttpServer where
  addr : Nat
  fd : Int
  loop : IOLoop
  read_buffers : FdMap Str
  write_buffers : FdMap Str
  handlers : List (Str × Nat)

/-- The loop of `AsyncHttpServer::find_handler` over the rest of the table. -/
def find_handler_from (rx : Regex) (path : Str) : List (Str × Nat) → Nat
  | [] => NULL
  | (pattern, handler) :: rest =>
    if rx.regcomp pattern then
      if (rx.regexec pattern path).isSome then handler
      else find_handler_from rx path rest
    else find_handler_from rx path rest

/-- The function `AsyncHttpServer::find_handler`. -/
def AsyncHttpServer.find_handler (rx : Regex) (self : AsyncHttpServer) (path : Str) : Nat :=
  find_handler_from rx path self.handlers

/-- The inner loop of `get_arguments` over `pmatch[1]`, `pmatch[2]`, ...: stops
at the first unused entry. -/
def collect_arguments (path : Str) : List (Int × Int) → List Str
  | [] => []
  | (rm_so, rm_eo) :: rest =>
    if rm_so = -1 then []
    else (path.drop rm_so.toNat).take (rm_eo - rm_so).toNat :: collect_arguments path rest

/-- The loop of `AsyncHttpServer::get_arguments` over the rest of the table. -/
def get_arguments_from (rx : Regex) (path : Str) : List (Str × Nat) → List Str
  | [] => []
  | (pattern, _) :: rest =>
    if rx.regcomp pattern then
      match rx.regexec pattern path with
      | some pmatch => collect_arguments path (pmatch.drop 1)
      | none => get_arguments_from rx path rest
    else get_arguments_from rx path rest

/-- The function `AsyncHttpServer::get_arguments`. -/
def AsyncHttpServer.get_arguments (rx : Regex) (self : AsyncHttpServer) (path : Str) :
    List Str :=
  get_arguments_from rx path self.handlers

/-- The function `AsyncHttpServer::add_handler`. -/
def AsyncHttpServer.add_handler (self : AsyncHttpServer) (pattern : Str) (handler : Nat) :
    AsyncHttpServer :=
  { self with handlers := self.handlers ++ [(pattern, handler)] }

/-- The loop of `AsyncHttpServer::remove_handler`: the table after the call and
the returned pointer, `none` when no pattern compares equal. The source erases
the element first and reads `(*it).second` afterwards, through the iterator it
still holds: that slot of the vector now holds the pair that followed the erased
one, and when the erased pair was the last one, the bytes of its pointer. -/
def remove_handler_from (pattern : Str) : List (Str × Nat) → Option (List (Str × Nat) × Nat)
  | [] => none
  | (p, h) :: rest =>
    if p = pattern then
      match rest with
      | [] => some ([], h)
      | (_, next) :: _ => some (rest, next)
    else
      match remove_handler_from pattern rest with
      | none => none
      | some (table, removed) => some ((p, h) :: table, removed)

/-- The function `AsyncHttpServer::remove_handler`. -/
def AsyncHttpServer.remove_handler (self : AsyncHttpServer) (pattern : Str) :
    AsyncHttpServer × Nat :=
  match remove_handler_from pattern self.handlers with
  | none => (self, NULL)
  | some (table, removed) => ({ self with handlers := table }, removed)

/-! ## AsyncHttpServer: events -/

/-- The function `AsyncHttpServer::on_error`. -/
def AsyncHttpServer.on_error (self : AsyncHttpServer) (sys : Sys) (fd : Int) :
    AsyncHttpServer × Sys :=
  let self := { self with read_buffers := self.read_buffers.erase fd }
  let self := { self with write_buffers := self.write_buffers.erase fd }
  let (loop, sys, _) := self.loop.unset_handler sys fd
  ({ self with loop := loop }, sys.close fd)

/-- The `while (true)` loop of `AsyncHttpServer::on_write`, from its `k`-th
`write` call on: the state at the `break` and the flag `done`. The result is
`none` when `fuel` iterations do not reach the `break`. -/
def AsyncHttpServer.on_write_loop (write : Nat → Nat → SysResult) (fd : Int) :
    Nat → Nat → AsyncHttpServer → Sys → Option (Except Exn (AsyncHttpServer × Sys × Bool))
  | 0, _, _, _ => none
  | fuel + 1, k, self, sys =>
    let self := { self with write_buffers := self.write_buffers.touch fd }
    let buffer := self.write_buffers.index fd
    let size := buffer.length
    let r := write k size
    let sys := sys.afterWrite fd buffer r
    if r.n > 0 then
      match substrFrom buffer r.n.toNat with
      | .error e => some (.error e)
      | .ok rest =>
        AsyncHttpServer.on_write_loop write fd fuel (k + 1)
          { self with write_buffers := self.write_buffers.set fd rest } sys
    else if sys.errno ≠ EAGAIN then some (.ok (self, sys, true))
    else if (self.write_buffers.index fd).length = 0 then some (.ok (self, sys, true))
    else some (.ok (self, sys, false))

/-- The function `AsyncHttpServer::on_write`. -/
def AsyncHttpServer.on_write (write : Nat → Nat → SysResult) (fuel : Nat)
    (self : AsyncHttpServer) (sys : Sys) (fd : Int) :
    Option (Except Exn (AsyncHttpServer × Sys)) :=
  match AsyncHttpServer.on_write_loop write fd fuel 0 self sys with
  | none => none
  | some (.error e) => some (.error e)
  | some (.ok (self, sys, done)) =>
    if done then some (.ok (self.on_error sys fd)) else some (.ok (self, sys))

/-- The accept loop of `AsyncHttpServer::on_read` on the listening socket, from
its `k`-th `accept` call on. The result is `none` when `fuel` iterations do not
reach the `break`. -/
def AsyncHttpServer.accept_loop (accept : Nat → SysResult) (fd : Int) :
    Nat → Nat → AsyncHttpServer → Sys → Option (Except Exn (AsyncHttpServer × Sys))
  | 0, _, _, _ => none
  | fuel + 1, k, self, sys =>
    let r := accept k
    let cfd := r.n
    let sys := { sys with errno := r.errno.getD sys.errno }
    if cfd < 0 then
      if sys.errno = EAGAIN then some (.ok (self, sys))
      else some (.error (.runtime_error "strerror(errno)"))
    else
      let self := { self with read_buffers := self.read_buffers.set fd [] }
      let (loop, sys, _) := self.loop.set_handler sys cfd self.addr true
      AsyncHttpServer.accept_loop accept fd fuel (k + 1) { self with loop := loop } sys

/-- The block of `AsyncHttpServer::on_read` that answers a parsed request: the
response to write back, built by the handler or by the server itself. The
objects that handler pointers refer to are given by `heap`. -/
def AsyncHttpServer.respond (rx : Regex) (heap : Nat → HttpRequestHandler)
    (self : AsyncHttpServer) (request : HttpRequest) : Except Exn HttpResponse :=
  let handler := self.find_handler rx request.path
  let response : Except Exn (Option HttpResponse) :=
    if handler ≠ NULL then
      let args := self.get_arguments rx request.path
      if request.method = "GET".toList then .ok ((heap handler).get request args)
      else if request.method = "POST".toList then .ok ((heap handler).post request args)
      else .error (.runtime_error "Invalid HTTP method")
    else .ok (some ⟨404, []⟩)
  match response with
  | .error e => .error e
  | .ok none => .ok ⟨500, []⟩
  | .ok (some response) => .ok response

/-- The read loop of `AsyncHttpServer::on_read` on a connection, from its
`k`-th `read` call on: the state at the `break` and the flag `error`. The result
is `none` when `fuel` iterations do not reach the `break`. -/
def AsyncHttpServer.read_loop (rx : Regex) (heap : Nat → HttpRequestHandler)
    (read : Nat → Nat → ReadResult) (BUFFER_SIZE : Nat) (fd : Int) :
    Nat → Nat → AsyncHttpServer → Sys → Option (Except Exn (AsyncHttpServer × Sys × Bool))
  | 0, _, _, _ => none
  | fuel + 1, k, self, sys =>
    let r := read k BUFFER_SIZE
    let sys := { sys with errno := r.errno.getD sys.errno }
    if r.n > 0 then
      let self := { self with
        read_buffers := self.read_buffers.set fd (self.read_buffers.index fd ++ r.text) }
      AsyncHttpServer.read_loop rx heap read BUFFER_SIZE fd fuel (k + 1) self sys
    else if r.n = 0 then some (.ok (self, sys, true))
    else if sys.errno ≠ EAGAIN then some (.ok (self, sys, true))
    else
      let self := { self with read_buffers := self.read_buffers.touch fd }
      match HttpRequest.from_sequence (self.read_buffers.index fd) with
      | .error e => some (.error e)
      | .ok none => some (.ok (self, sys, false))
      | .ok (some request) =>
        match self.respond rx heap request with
        | .error e => some (.error e)
        | .ok response =>
          let self := { self with
            write_buffers := self.write_buffers.set fd response.to_sequence }
          let (loop, sys, _) := self.loop.set_handler sys fd self.addr false
          some (.ok ({ self with loop := loop }, sys, false))

/-- The function `AsyncHttpServer::on_read`. -/
def AsyncHttpServer.on_read (rx : Regex) (heap : Nat → HttpRequestHandler)
    (accept : Nat → SysResult) (read : Nat → Nat → ReadResult) (BUFFER_SIZE : Nat)
    (fuel : Nat) (self : AsyncHttpServer) (sys : Sys) (fd : Int) :
    Option (Except Exn (AsyncHttpServer × Sys)) :=
  if fd = self.fd then AsyncHttpServer.accept_loop accept fd fuel 0 self sys
  else
    match AsyncHttpServer.read_loop rx heap read BUFFER_SIZE fd fuel 0 self sys with
    | none => none
    | some (.error e) => some (.error e)
    | some (.ok (self, sys, error)) =>
      if error then
        let self := { self with read_buffers := self.read_buffers.erase fd }
        let self := { self with write_buffers := self.write_buffers.erase fd }
        let (loop, sys, _) := self.loop.unset_handler sys fd
        some (.ok ({ self with loop := loop }, sys.close fd))
      else some (.ok (self, sys))

/-! ## AsyncHttpClient -/

/-- The class `AsyncHttpClient`; `addr` is the address of the object and
`handlers` holds the response handler of each descriptor. -/
structure AsyncHttpClient where
  addr : Nat
  loop : IOLoop
  read_buffers : FdMap Str
  write_buffers : FdMap Str
  handlers : FdMap Nat

/-- The function `AsyncHttpClient::on_error`. -/
def AsyncHttpClient.on_error (self : AsyncHttpClient) (sys : Sys) (fd : Int) :
    AsyncHttpClient × Sys :=
  ({ self with
      read_buffers := self.read_buffers.erase fd
      write_buffers := self.write_buffers.erase fd
      handlers := self.handlers.erase fd }, sys.close fd)

/-- The `while (true)` loop of `AsyncHttpClient::on_read`, from its `k`-th
`read` call on: the state at the `break` and the flag `done`. The result is
`none` when `fuel` iterations do not reach a `break`. The access
`handlers[fd]` inserts a null pointer when the key is absent. -/
def AsyncHttpClient.on_read_loop (read : Nat → Nat → ReadResult) (BUFFER_SIZE : Nat)
    (fd : Int) :
    Nat → Nat → AsyncHttpClient → Sys → Option (Except Exn (AsyncHttpClient × Sys × Bool))
  | 0, _, _, _ => none
  | fuel + 1, k, self, sys =>
    let r := read k BUFFER_SIZE
    let sys := { sys with errno := r.errno.getD sys.errno }
    if r.n > 0 then
      let self := { self with
        read_buffers := self.read_buffers.set fd (self.read_buffers.index fd ++ r.text) }
      AsyncHttpClient.on_read_loop read BUFFER_SIZE fd fuel (k + 1) self sys
    else if r.n = 0 then
      let self := { self with read_buffers := self.read_buffers.touch fd }
      match HttpResponse.from_sequence (self.read_buffers.index fd) with
      | .error e => some (.error e)
      | .ok (some response) =>
        let handler := (self.handlers fd).getD NULL
        let self := { self with handlers := self.handlers.set fd handler }
        let sys := { sys with received := sys.received ++ [(handler, response)] }
        some (.ok (self, sys, true))
      | .ok none => AsyncHttpClient.on_read_loop read BUFFER_SIZE fd fuel (k + 1) self sys
    else if sys.errno ≠ EAGAIN then some (.ok (self, sys, true))
    else some (.ok (self, sys, false))

/-- The function `AsyncHttpClient::on_read`. -/
def AsyncHttpClient.on_read (read : Nat → Nat → ReadResult) (BUFFER_SIZE : Nat)
    (fuel : Nat) (self : AsyncHttpClient) (sys : Sys) (fd : Int) :
    Option (Except Exn (AsyncHttpClient × Sys)) :=
  match AsyncHttpClient.on_read_loop read BUFFER_SIZE fd fuel 0 self sys with
  | none => none
  | some (.error e) => some (.error e)
  | some (.ok (self, sys, done)) =>
    if done then some (.ok (self.on_error sys fd)) else some (.ok (self, sys))

/-- The `while (true)` loop of `AsyncHttpClient::on_write`, from its `k`-th
`write` call on: the state at the `break` and the flag `error`. The result is
`none` when `fuel` iterations do not reach the `break`. -/
def AsyncHttpClient.on_write_loop (write : Nat → Nat → SysResult) (fd : Int) :
    Nat → Nat → AsyncHttpClient → Sys → Option (Except Exn (AsyncHttpClient × Sys × Bool))
  | 0, _, _, _ => none
  | fuel + 1, k, self, sys =>
    let self := { self with write_buffers := self.write_buffers.touch fd }
    let buffer := self.write_buffers.index fd
    let size := buffer.length
    let r := write k size
    let sys := sys.afterWrite fd buffer r
    if r.n > 0 then
      match substrFrom buffer r.n.toNat with
      | .error e => some (.error e)
      | .ok rest =>
        AsyncHttpClient.on_write_loop write fd fuel (k + 1)
          { self with write_buffers := self.write_buffers.set fd rest } sys
    else if sys.errno = EAGAIN then some (.ok (self, sys, false))
    else if (self.write_buffers.index fd).length = 0 then
      let (loop, sys, _) := self.loop.set_handler sys fd self.addr true
      let self := { self with loop := loop }
      some (.ok ({ self with read_buffers := self.read_buffers.set fd [] }, sys, false))
    else some (.ok (self, sys, true))

/-- The function `AsyncHttpClient::on_write`. -/
def AsyncHttpClient.on_write (write : Nat → Nat → SysResult) (fuel : Nat)
    (self : AsyncHttpClient) (sys : Sys) (fd : Int) :
    Option (Except Exn (AsyncHttpClient × Sys)) :=
  match AsyncHttpClient.on_write_loop write fd fuel 0 self sys with
  | none => none
  | some (.error e) => some (.error e)
  | some (.ok (self, sys, error)) =>
    if error then some (.ok (self.on_error sys fd)) else some (.ok (self, sys))

/-- The connection on `fd` is closed: the server holds no buffer for it, the
loop holds no handler and no interest for it, and `close` was called on it. -/
def AsyncHttpServer.connection_closed (self : AsyncHttpServer) (sys : Sys) (fd : Int) : Prop :=
  self.read_buffers fd = none ∧ self.write_buffers fd = none ∧
    self.loop.handlers fd = none ∧ self.loop.events fd = none ∧ fd ∈ sys.closed

/-! ## Sample values -/

/-- A process state with the given `errno`, nothing closed, sent or received. -/
def Sys.start (errno : Int) : Sys := ⟨errno, [], fun _ => [], []⟩

/-- An event loop in which object `1` is registered for every descriptor, in
the given direction. -/
def IOLoop.sample (read : Bool) : IOLoop := ⟨fun _ => some 1, fun _ => some read⟩

/-- A server at address `1`, listening on descriptor `3`, with the given route
table, the given read buffer and the given write buffer for every descriptor. -/
def AsyncHttpServer.sample (table : List (Str × Nat)) (inbound outbound : Str) :
    AsyncHttpServer :=
  ⟨1, 3, IOLoop.sample false, fun _ => some inbound, fun _ => some outbound, table⟩

/-- A client at address `1` with the given read and write buffer for every
descriptor, registered for write events, with response handler `2`. -/
def AsyncHttpClient.sample (inbound : Option Str) (outbound : Str) : AsyncHttpClient :=
  ⟨1, IOLoop.sample false, fun _ => inbound, fun _ => some outbound, fun _ => some 2⟩

/-- A `write` that accepts two bytes at its first call and reports "try again"
afterwards. -/
def sampleWrite (k c : Nat) : SysResult :=
  if k = 0 then ⟨min 2 c, none⟩ else ⟨-1, some EAGAIN⟩

/-- A `write` that accepts everything at its first call; the call on the then
empty buffer returns 0 and leaves `errno` as it was. -/
def sampleWriteAll (k c : Nat) : SysResult :=
  if k = 0 then ⟨c, none⟩ else ⟨0, none⟩

/-- A `read` at end of file: every call returns 0. -/
def readEof (_k _count : Nat) : ReadResult := ⟨0, none, []⟩

/-- A `read` that has nothing to deliver and reports "try again". -/
def readAgain (_k _count : Nat) : ReadResult := ⟨-1, some EAGAIN, []⟩

/-- An `accept` that has no connection to deliver and reports "try again". -/
def acceptAgain (_k : Nat) : SysResult := ⟨-1, some EAGAIN⟩

/-- A regex engine in which every pattern compiles and matches exactly the
path `/a`, without groups. -/
def sampleRegex : Regex :=
  ⟨fun _ => true, fun _ path => if path = "/a".toList then some [(0, 2), (-1, -1)] else none⟩

/-! # Lemmas -/

/-! ## Searching -/

theorem findAt_nil (needle : Str) :
    findAt needle [] = if needle.isPrefixOf [] then some 0 else none := rfl

theorem findAt_cons (needle : Str) (c : Char) (cs : Str) :
    findAt needle (c :: cs) =
      if needle.isPrefixOf (c :: cs) then some 0 else (findAt needle cs).map (· + 1) := rfl

theorem findAt_some_bound (needle : Str) :
    ∀ (s : Str) (i : Nat), findAt needle s = some i →
      i + needle.length ≤ s.length ∧ needle <+: s.drop i := by
  intro s
  induction s with
  | nil =>
    intro i h
    simp only [findAt] at h
    split at h
    · rename_i hp
      cases h
      rw [List.isPrefixOf_iff_prefix] at hp
      have := List.eq_nil_of_prefix_nil hp
      subst this
      simp
    · cases h
  | cons c cs ih =>
    intro i h
    simp only [findAt] at h
    split at h
    · rename_i hp
      cases h
      rw [List.isPrefixOf_iff_prefix] at hp
      exact ⟨by simpa using hp.length_le, by simpa using hp⟩
    · cases hf : findAt needle cs with
      | none => rw [hf] at h; cases h
      | some j =>
        rw [hf] at h
        simp only [Option.map_some', Option.some.injEq] at h
        subst h
        have := ih j hf
        exact ⟨by simp only [List.length_cons]; omega, by simpa using this.2⟩

theorem isPrefixOf_append_of_le (needle a b : Str) (h : needle.length ≤ a.length) :
    needle.isPrefixOf (a ++ b) = needle.isPrefixOf a := by
  rw [Bool.eq_iff_iff, List.isPrefixOf_iff_prefix, List.isPrefixOf_iff_prefix]
  rw [List.prefix_iff_eq_take, List.prefix_iff_eq_take, List.take_append_of_le_length h]

theorem findAt_append (needle : Str) :
    ∀ (a b : Str) (i : Nat), findAt needle a = some i → findAt needle (a ++ b) = some i := by
  intro a
  induction a with
  | nil =>
    intro b i h
    simp only [findAt] at h
    split at h
    · rename_i hp
      cases h
      rw [List.isPrefixOf_iff_prefix] at hp
      have := List.eq_nil_of_prefix_nil hp
      subst this
      cases b <;> simp [findAt]
    · cases h
  | cons c cs ih =>
    intro b i h
    have hb := (findAt_some_bound needle (c :: cs) i h).1
    have hle : needle.length ≤ (c :: cs).length := by omega
    rw [findAt_cons] at h
    rw [List.cons_append, findAt_cons]
    have hpe := isPrefixOf_append_of_le needle (c :: cs) b hle
    simp only [List.cons_append] at hpe
    rw [hpe]
    split at h
    · rename_i hp
      simp [hp, h]
    · rename_i hp
      simp only [hp]
      cases hf : findAt needle cs with
      | none => rw [hf] at h; cases h
      | some j =>
        rw [hf] at h
        rw [ih b j hf]
        exact h

theorem findAt_skip (needle rest : Str) :
    ∀ (pre : Str), (∀ t, t ≠ [] → t <:+ pre → needle.isPrefixOf (t ++ rest) = false) →
      findAt needle (pre ++ rest) = (findAt needle rest).map (· + pre.length) := by
  intro pre
  induction pre with
  | nil => intro _; simp
  | cons c cs ih =>
    intro h
    have h0 := h (c :: cs) (by simp) (List.suffix_refl _)
    simp only [List.cons_append] at h0
    rw [List.cons_append, findAt_cons, h0]
    simp only [Bool.false_eq_true, if_false]
    rw [ih (fun t ht hs => h t ht (hs.trans (List.suffix_cons c cs)))]
    cases findAt needle rest <;> simp [Nat.add_assoc]

theorem not_prefix_append (needle t rest : Str)
    (h1 : needle.isPrefixOf t = false) (h2 : t.isPrefixOf needle = false) :
    needle.isPrefixOf (t ++ rest) = false := by
  rw [Bool.eq_false_iff] at h1 h2 ⊢
  rw [Ne, List.isPrefixOf_iff_prefix] at h1 h2 ⊢
  intro h
  have ht : t <+: t ++ rest := List.prefix_append t rest
  rcases Nat.le_total needle.length t.length with hl | hl
  · exact h1 (List.prefix_of_prefix_length_le h ht hl)
  · exact h2 (List.prefix_of_prefix_length_le ht h hl)

theorem clashes_suffix (needle : Str) :
    ∀ (pre : Str), clashes needle pre = true → ∀ t, t ≠ [] → t <:+ pre →
      needle.isPrefixOf t = false ∧ t.isPrefixOf needle = false := by
  intro pre
  induction pre with
  | nil =>
    intro _ t ht hs
    exact absurd (List.eq_nil_of_suffix_nil hs) ht
  | cons c cs ih =>
    intro h t ht hs
    simp only [clashes, Bool.and_eq_true, Bool.not_eq_true'] at h
    rcases List.suffix_cons_iff.mp hs with heq | hs2
    · subst heq
      exact ⟨h.1.1, h.1.2⟩
    · exact ih h.2 t ht hs2

theorem findAt_skip_clashes (needle pre rest : Str) (h : clashes needle pre = true) :
    findAt needle (pre ++ rest) = (findAt needle rest).map (· + pre.length) := by
  apply findAt_skip
  intro t ht hs
  have := clashes_suffix needle pre h t ht hs
  exact not_prefix_append needle t rest this.1 this.2

theorem clashes_of_head (n0 : Char) (ns : Str) :
    ∀ (pre : Str), (∀ c ∈ pre, c ≠ n0) → clashes (n0 :: ns) pre = true := by
  intro pre
  induction pre with
  | nil => intro _; rfl
  | cons c cs ih =>
    intro h
    have hc : c ≠ n0 := h c (by simp)
    have hc2 : n0 ≠ c := fun e => hc e.symm
    simp only [clashes, List.isPrefixOf, Bool.and_eq_true, Bool.not_eq_true', Bool.and_eq_false_imp,
      beq_iff_eq]
    refine ⟨⟨fun e => absurd e hc2, fun e => absurd e hc⟩, ih (fun x hx => h x (by simp [hx]))⟩

theorem findAt_skip_noinfix (needle pre rest : Str) (c : Char)
    (h : ¬ needle <:+: pre) (hc : c ∉ needle) :
    findAt needle (pre ++ c :: rest) = (findAt needle (c :: rest)).map (· + pre.length) := by
  apply findAt_skip
  intro t _ hs
  rw [Bool.eq_false_iff, Ne, List.isPrefixOf_iff_prefix]
  intro hp
  rcases Nat.lt_or_ge t.length needle.length with hl | hl
  · have h1 : t ++ [c] <+: t ++ c :: rest := by
      have := List.prefix_append (t ++ [c]) rest
      simp only [List.append_assoc, List.singleton_append] at this
      exact this
    have h2 : t ++ [c] <+: needle :=
      List.prefix_of_prefix_length_le h1 hp (by simp only [List.length_append, List.length_singleton]; omega)
    exact hc (h2.subset (by simp))
  · have h1 : needle <+: t :=
      List.prefix_of_prefix_length_le hp (List.prefix_append t _) hl
    exact h (h1.isInfix.trans hs.isInfix)

theorem findAt_self (needle rest : Str) : findAt needle (needle ++ rest) = some 0 := by
  have hp : needle.isPrefixOf (needle ++ rest) = true := by
    rw [List.isPrefixOf_iff_prefix]; exact List.prefix_append _ _
  cases h : needle ++ rest with
  | nil => rw [h] at hp; rw [findAt_nil, hp]; rfl
  | cons c cs => rw [h] at hp; rw [findAt_cons, hp]; rfl

theorem findAt_eq_none_iff (needle : Str) :
    ∀ (s : Str), findAt needle s = none ↔ ¬ needle <:+: s := by
  intro s
  induction s with
  | nil =>
    rw [findAt_nil]
    constructor
    · intro h hi
      have := List.eq_nil_of_infix_nil hi
      subst this
      simp at h
    · intro h
      split
      · rename_i hp
        rw [List.isPrefixOf_iff_prefix] at hp
        exact absurd hp.isInfix h
      · rfl
  | cons c cs ih =>
    rw [findAt_cons]
    constructor
    · intro h hi
      split at h
      · cases h
      · rename_i hp
        rw [List.isPrefixOf_iff_prefix] at hp
        rcases List.infix_cons_iff.mp hi with h1 | h1
        · exact hp h1
        · cases hf : findAt needle cs with
          | none => exact (ih.mp hf) h1
          | some j => rw [hf] at h; cases h
    · intro h
      split
      · rename_i hp
        rw [List.isPrefixOf_iff_prefix] at hp
        exact absurd hp.isInfix h
      · have : ¬ needle <:+: cs := fun hi => h (hi.trans (List.infix_cons (List.infix_refl cs)))
        rw [ih.mpr this]; rfl

/-! ## `find` and `substr` -/

theorem find_zero (s needle : Str) :
    find s needle 0 = match findAt needle s with
      | some i => i
      | none => npos := by
  unfold find
  simp only [Nat.not_lt_zero, if_false, List.drop_zero, gt_iff_lt]
  cases findAt needle s <;> simp

theorem find_append_at (a b needle : Str) :
    find (a ++ b) needle a.length = match findAt needle b with
      | some i => a.length + i
      | none => npos := by
  unfold find
  have h : ¬ a.length > (a ++ b).length := by simp
  rw [if_neg h, List.drop_left]

theorem find_found (s needle : Str) (pos : Nat)
    (h : find s needle pos ≠ npos) :
    pos ≤ find s needle pos ∧ find s needle pos + needle.length ≤ s.length ∧
      findAt needle (s.drop pos) = some (find s needle pos - pos) := by
  unfold find at h ⊢
  split
  · rename_i hp; rw [if_pos hp] at h; exact absurd rfl h
  · rename_i hp
    rw [if_neg hp] at h
    cases hf : findAt needle (s.drop pos) with
    | none => rw [hf] at h; exact absurd rfl h
    | some i =>
      have hb := (findAt_some_bound needle _ i hf).1
      simp only [List.length_drop] at hb
      simp only
      refine ⟨by omega, by omega, by simp⟩

theorem find_ne_npos_iff (s needle : Str) (hl : s.length < npos) :
    find s needle 0 ≠ npos ↔ needle <:+: s := by
  rw [find_zero]
  cases hf : findAt needle s with
  | none =>
    have := (findAt_eq_none_iff needle s).mp hf
    simp [this]
  | some i =>
    have hb := (findAt_some_bound needle s i hf).1
    have hi : needle <:+: s := by
      by_contra hc
      rw [(findAt_eq_none_iff needle s).mpr hc] at hf
      cases hf
    simp only [hi, iff_true]
    omega

theorem substr_ok (s : Str) (pos n : Nat) (h : pos ≤ s.length) :
    substr s pos n = .ok ((s.drop pos).take n) := by
  unfold substr
  rw [if_neg (by omega)]

theorem addSize_of_lt (a b : Nat) (h : a + b < SIZE) : addSize a b = a + b := by
  unfold addSize; exact Nat.mod_eq_of_lt h

theorem subSize_of_le (a b : Nat) (h : b ≤ a) (ha : a < SIZE) : subSize a b = a - b := by
  unfold subSize
  have hb : b % SIZE = b := Nat.mod_eq_of_lt (by omega)
  rw [hb]
  have : a + SIZE - b = (a - b) + SIZE := by omega
  rw [this, Nat.add_mod_right]
  exact Nat.mod_eq_of_lt (by omega)

/-! ## Decimal digits -/

theorem digitChar_digit (k : Nat) (h : k < 10) :
    (Nat.digitChar k).isDigit = true ∧ (Nat.digitChar k).toNat - 48 = k := by
  interval_cases k <;> decide

theorem digitsValue_cons_digit (acc : Nat) (c : Char) (cs : Str) (h : c.isDigit = true) :
    digitsValue acc (c :: cs) = digitsValue (acc * 10 + (c.toNat - 48)) cs := by
  rw [digitsValue, if_pos h]

theorem toDigitsCore_spec : ∀ (fuel n : Nat) (ds : Str), n < fuel →
    ∃ D : Str, Nat.toDigitsCore 10 fuel n ds = D ++ ds ∧ D ≠ [] ∧
      (∀ c ∈ D, c.isDigit = true) ∧
      (∀ acc rest, digitsValue acc (D ++ rest) = digitsValue (acc * 10 ^ D.length + n) rest) := by
  intro fuel
  induction fuel with
  | zero => intro n ds h; omega
  | succ fuel ih =>
    intro n ds h
    have hd := digitChar_digit (n % 10) (Nat.mod_lt _ (by decide))
    unfold Nat.toDigitsCore
    simp only
    split
    · rename_i h0
      refine ⟨[Nat.digitChar (n % 10)], rfl, by simp, ?_, ?_⟩
      · intro c hc
        simp only [List.mem_singleton] at hc
        rw [hc]; exact hd.1
      · intro acc rest
        have hn : n % 10 = n := by omega
        rw [List.singleton_append, digitsValue_cons_digit _ _ _ hd.1, hd.2, hn,
          List.length_singleton, pow_one]
    · rename_i h0
      have hlt : n / 10 < fuel := by omega
      obtain ⟨D, hD, hne, hdig, hval⟩ := ih (n / 10) (Nat.digitChar (n % 10) :: ds) hlt
      refine ⟨D ++ [Nat.digitChar (n % 10)], by rw [hD]; simp, by simp, ?_, ?_⟩
      · intro c hc
        rcases List.mem_append.mp hc with h1 | h1
        · exact hdig c h1
        · simp only [List.mem_singleton] at h1
          rw [h1]; exact hd.1
      · intro acc rest
        rw [List.append_assoc, hval, List.singleton_append, digitsValue_cons_digit _ _ _ hd.1,
          hd.2, List.length_append, List.length_singleton, pow_succ]
        congr 1
        have := Nat.div_add_mod n 10
        nlinarith [Nat.div_add_mod n 10]

theorem decimal_spec (n : Nat) :
    decimal n ≠ [] ∧ (∀ c ∈ decimal n, c.isDigit = true) ∧
      (∀ acc rest, digitsValue acc (decimal n ++ rest)
        = digitsValue (acc * 10 ^ (decimal n).length + n) rest) := by
  obtain ⟨D, hD, hne, hdig, hval⟩ := toDigitsCore_spec (n + 1) n [] (Nat.lt_succ_self n)
  have : decimal n = D := by
    unfold decimal Nat.toDigits
    rw [hD]; simp
  rw [this]
  exact ⟨hne, hdig, hval⟩

theorem decimal_length_le (n : Nat) (h : n < 10 ^ 19) : (decimal n).length ≤ 19 := by
  have := Nat.repr_length n 19 (by decide) h
  simpa [Nat.repr, decimal] using this

/-! ## `atoi` on rendered numbers -/

theorem digit_not_space (c : Char) (h : c.isDigit = true) :
    isspace c = false ∧ c ≠ '-' ∧ c ≠ '+' ∧ c ≠ '\r' ∧ c ≠ ' ' ∧ c ≠ 'C' := by
  refine ⟨?_, ?_, ?_, ?_, ?_, ?_⟩
  · unfold isspace
    simp only [Bool.or_eq_false_iff, beq_eq_false_iff_ne, ne_eq]
    refine ⟨⟨⟨⟨⟨?_, ?_⟩, ?_⟩, ?_⟩, ?_⟩, ?_⟩ <;>
    · rintro rfl
      exact absurd h (by decide)
  all_goals
    rintro rfl
    exact absurd h (by decide)

theorem strtol_space_decimal (n : Nat) :
    strtol (' ' :: decimal n) = if n ≥ 2 ^ 63 then 2 ^ 63 - 1 else (n : Int) := by
  obtain ⟨hne, hdig, hval⟩ := decimal_spec n
  have hv : digitsValue 0 (decimal n) = n := by
    have := hval 0 []
    simpa [digitsValue] using this
  cases hD : decimal n with
  | nil => exact absurd hD hne
  | cons d ds =>
    rw [hD] at hv
    have hd := digit_not_space d (hdig d (by rw [hD]; simp))
    have hdw : List.dropWhile isspace (' ' :: d :: ds) = d :: ds := by
      rw [List.dropWhile_cons_of_pos (by decide), List.dropWhile_cons_of_neg (by simp [hd.1])]
    unfold strtol
    rw [hdw]
    split
    · rename_i u heq
      simp only [List.cons.injEq] at heq
      exact absurd heq.1 hd.2.1
    · rename_i u heq
      simp only [List.cons.injEq] at heq
      exact absurd heq.1 hd.2.2.1
    · rw [hv]

theorem atoi_space_decimal (n : Nat) (h : n < 2 ^ 31) : atoi (' ' :: decimal n) = n := by
  unfold atoi
  rw [strtol_space_decimal, if_neg (by omega)]
  unfold toInt32
  omega

theorem toSize_natCast (n : Nat) (h : n < 2 ^ 64) : toSize (n : Int) = n := by
  unfold toSize
  omega

/-! ## Parsing a rendered response -/

theorem response_parse (L : Str) (code : Int) (n : Nat) (b : Str)
    (h1 : clashes "\r\n\r\n".toList (L ++ "Content-Length: ".toList) = true)
    (h2 : clashes "Content-Length:".toList L = true)
    (h3 : findAt " ".toList L = some 8)
    (h4 : findAt " ".toList (L.drop 9) = some 3)
    (h5 : atoi ((L.drop 9).take 3) = code)
    (h6 : 12 ≤ L.length)
    (hS : (L ++ "Content-Length: ".toList ++ decimal n ++ "\r\n\r\n".toList ++ b).length
      < npos) :
    HttpResponse.from_sequence
        (L ++ "Content-Length: ".toList ++ decimal n ++ "\r\n\r\n".toList ++ b)
      = if L.length + 16 + (decimal n).length + 4 + b.length
            ≥ addSize (L.length + 16 + (decimal n).length + 4)
                (toSize (atoi (' ' :: decimal n)))
        then .ok (some ⟨code, b.take (toSize (atoi (' ' :: decimal n)))⟩)
        else .ok none := by
  obtain ⟨_, hdig, _⟩ := decimal_spec n
  generalize decimal n = D at *
  have hnp : npos = 2 ^ 64 - 1 := rfl
  have hSZ : SIZE = 2 ^ 64 := rfl
  have hCLsp : "Content-Length: ".toList = "Content-Length:".toList ++ [' '] := by decide
  have hCRLF2 : "\r\n\r\n".toList = "\r\n".toList ++ "\r\n".toList := by decide
  have hlCL : "Content-Length:".toList.length = 15 := by decide
  have hlCLsp : "Content-Length: ".toList.length = 16 := by decide
  have hl2 : "\r\n\r\n".toList.length = 4 := by decide
  have hD1 : clashes "\r\n\r\n".toList D = true :=
    clashes_of_head '\r' _ D (fun c hc => (digit_not_space c (hdig c hc)).2.2.2.1)
  have hD2 : clashes "\r\n".toList (' ' :: D) = true :=
    clashes_of_head '\r' _ (' ' :: D) (fun c hc => by
      rcases List.mem_cons.mp hc with h | h
      · rw [h]; decide
      · exact (digit_not_space c (hdig c h)).2.2.2.1)
  set S := L ++ "Content-Length: ".toList ++ D ++ "\r\n\r\n".toList ++ b with hSdef
  have hlen : S.length = L.length + 16 + D.length + 4 + b.length := by
    simp only [hSdef, List.length_append, hlCLsp, hl2]
  rw [hlen] at hS
  -- the delimiter
  have F1 : find S "\r\n\r\n".toList 0 = L.length + 16 + D.length := by
    have e : S = (L ++ "Content-Length: ".toList) ++ (D ++ ("\r\n\r\n".toList ++ b)) := by
      simp only [hSdef, List.append_assoc]
    rw [find_zero, e, findAt_skip_clashes _ _ _ h1, findAt_skip_clashes _ _ _ hD1, findAt_self]
    simp only [Option.map_some', List.length_append, hlCLsp]
    ring
  -- the header name
  have F2 : find S "Content-Length:".toList 0 = L.length := by
    have e : S = L ++ ("Content-Length:".toList ++ (' ' :: (D ++ ("\r\n\r\n".toList ++ b)))) := by
      simp only [hSdef, hCLsp, List.append_assoc, List.singleton_append, List.cons_append,
        List.nil_append]
    rw [find_zero, e, findAt_skip_clashes _ _ _ h2, findAt_self]
    simp
  -- the end of the header line
  have eS3 : S = (L ++ "Content-Length:".toList) ++
      ((' ' :: D) ++ ("\r\n".toList ++ ("\r\n".toList ++ b))) := by
    simp only [hSdef, hCLsp, hCRLF2, List.append_assoc, List.singleton_append, List.cons_append,
      List.nil_append]
  have F3 : find S "\r\n".toList (L.length + 15) = L.length + 15 + (1 + D.length) := by
    have hl : (L ++ "Content-Length:".toList).length = L.length + 15 := by
      simp only [List.length_append, hlCL]
    rw [eS3, ← hl, find_append_at, findAt_skip_clashes _ _ _ hD2, findAt_self]
    simp only [Option.map_some', List.length_cons]
    ring
  have F4 : substr S (L.length + 15) (1 + D.length) = .ok (' ' :: D) := by
    have hl : (L ++ "Content-Length:".toList).length = L.length + 15 := by
      simp only [List.length_append, hlCL]
    rw [substr_ok _ _ _ (by omega), eS3, ← hl, List.drop_left]
    have : 1 + D.length = (' ' :: D).length := by simp only [List.length_cons]; omega
    rw [this, List.take_left]
  -- the status code
  have eS5 : S = L ++ ("Content-Length: ".toList ++ D ++ "\r\n\r\n".toList ++ b) := by
    simp only [hSdef, List.append_assoc]
  have F5 : find S " ".toList 0 = 8 := by
    rw [find_zero, eS5, findAt_append _ _ _ _ h3]
  have F6 : find S " ".toList 9 = 12 := by
    unfold find
    rw [if_neg (by omega), eS5, List.drop_append_of_le_length (by omega),
      findAt_append _ _ _ _ h4]
  have F7 : substr S 9 3 = .ok ((L.drop 9).take 3) := by
    rw [substr_ok _ _ _ (by omega), eS5, List.drop_append_of_le_length (by omega),
      List.take_append_of_le_length (by simp only [List.length_drop]; omega)]
  -- the body
  have F8 : ∀ k, substr S (L.length + 16 + D.length + 4) k = .ok (b.take k) := by
    intro k
    have hl : (L ++ "Content-Length: ".toList ++ D ++ "\r\n\r\n".toList).length
        = L.length + 16 + D.length + 4 := by
      simp only [List.length_append, hlCLsp, hl2]
    rw [substr_ok _ _ _ (by omega), hSdef, ← hl, List.drop_left]
  have A1 : addSize (L.length + 16 + D.length) 4 = L.length + 16 + D.length + 4 :=
    addSize_of_lt _ _ (by omega)
  have A2 : addSize L.length 15 = L.length + 15 := addSize_of_lt _ _ (by omega)
  have A3 : subSize (L.length + 15 + (1 + D.length)) (L.length + 15) = 1 + D.length := by
    rw [subSize_of_le _ _ (by omega) (by omega)]; omega
  have A4 : addSize 8 1 = 9 := by decide
  have A5 : subSize 12 9 = 3 := by decide
  have hne : L.length + 16 + D.length ≠ npos := by omega
  unfold HttpResponse.from_sequence
  simp only [F1, F2, A1, A2, F3, A3, F4, F5, A4, F6, A5, F7, F8, h5, hlen, hne, ne_eq,
    not_false_eq_true, if_true, ge_iff_le]

/-- The status line written by `to_sequence`, including its line end. -/
theorem to_sequence_line (r : HttpResponse)
    (hc : r.code = 200 ∨ r.code = 204 ∨ r.code = 404 ∨ r.code = 405 ∨ r.code = 500) :
    ∃ L : Str, r.to_sequence = L ++ "Content-Length: ".toList ++ decimal r.body.length
        ++ "\r\n\r\n".toList ++ r.body ∧
      clashes "\r\n\r\n".toList (L ++ "Content-Length: ".toList) = true ∧
      clashes "Content-Length:".toList L = true ∧
      findAt " ".toList L = some 8 ∧
      findAt " ".toList (L.drop 9) = some 3 ∧
      atoi ((L.drop 9).take 3) = r.code ∧
      12 ≤ L.length ∧ L.length ≤ 36 := by
  obtain ⟨c, b⟩ := r
  simp only at hc
  rcases hc with h | h | h | h | h <;> subst h
  · exact ⟨"HTTP/1.0 200 OK\r\n".toList, rfl, by decide, by decide, by decide, by decide,
      (by decide : atoi ((List.drop 9 "HTTP/1.0 200 OK\r\n".toList).take 3) = 200), by decide, by decide⟩
  · exact ⟨"HTTP/1.0 204 No Content\r\n".toList, rfl, by decide, by decide, by decide, by decide,
      (by decide : atoi ((List.drop 9 "HTTP/1.0 204 No Content\r\n".toList).take 3) = 204), by decide, by decide⟩
  · exact ⟨"HTTP/1.0 404 Not Found\r\n".toList, rfl, by decide, by decide, by decide, by decide,
      (by decide : atoi ((List.drop 9 "HTTP/1.0 404 Not Found\r\n".toList).take 3) = 404), by decide, by decide⟩
  · exact ⟨"HTTP/1.0 405 Method Not Allowed\r\n".toList, rfl, by decide, by decide, by decide, by decide,
      (by decide : atoi ((List.drop 9 "HTTP/1.0 405 Method Not Allowed\r\n".toList).take 3) = 405), by decide, by decide⟩
  · exact ⟨"HTTP/1.0 500 Internal Server Error\r\n".toList, rfl, by decide, by decide, by decide, by decide,
      (by decide : atoi ((List.drop 9 "HTTP/1.0 500 Internal Server Error\r\n".toList).take 3) = 500), by decide, by decide⟩

/-! ## Parsing a rendered request -/

/-- Positions found in a request in the wire format of `fetch`. -/
theorem request_positions (M path D b S : Str)
    (hM : ∀ c ∈ M, c ≠ ' ' ∧ c ≠ '\r')
    (hp1 : ' ' ∉ path) (hp2 : '\r' ∉ path)
    (hdig : ∀ c ∈ D, c.isDigit = true)
    (hS : S = M ++ (' ' :: (path ++ (" HTTP/1.0\r\nContent-Length: ".toList
      ++ (D ++ ("\r\n\r\n".toList ++ b)))))) :
    S.length = M.length + 1 + path.length + 27 + D.length + 4 + b.length ∧
    find S "\r\n\r\n".toList 0 = M.length + 1 + path.length + 27 + D.length ∧
    find S " ".toList 0 = M.length ∧
    substr S 0 M.length = .ok M ∧
    find S " ".toList (M.length + 1) = M.length + 1 + path.length ∧
    substr S (M.length + 1) path.length = .ok path ∧
    (clashes "Content-Length:".toList (M ++ [' ']) = true →
      ¬ "Content-Length:".toList <:+: path →
      find S "Content-Length:".toList 0 = M.length + 1 + path.length + 11) ∧
    find S "\r\n".toList (M.length + 1 + path.length + 26)
      = M.length + 1 + path.length + 26 + (1 + D.length) ∧
    substr S (M.length + 1 + path.length + 26) (1 + D.length) = .ok (' ' :: D) ∧
    ∀ k, substr S (M.length + 1 + path.length + 27 + D.length + 4) k = .ok (b.take k) := by
  have hl2 : "\r\n\r\n".toList.length = 4 := by decide
  have hlM : " HTTP/1.0\r\nContent-Length: ".toList.length = 27 := by decide
  have hL : S.length = M.length + 1 + path.length + 27 + D.length + 4 + b.length := by
    rw [hS]
    simp only [List.length_append, List.length_cons, hlM, hl2]
    omega
  have hMsp : ∀ c ∈ M ++ [' '], c ≠ '\r' := by
    intro c hc
    rcases List.mem_append.mp hc with h | h
    · exact (hM c h).2
    · simp only [List.mem_singleton] at h
      rw [h]; decide
  have hD1 : clashes "\r\n\r\n".toList D = true :=
    clashes_of_head '\r' _ D (fun c hc => (digit_not_space c (hdig c hc)).2.2.2.1)
  have hD2 : clashes "\r\n".toList (' ' :: D) = true :=
    clashes_of_head '\r' _ (' ' :: D) (fun c hc => by
      rcases List.mem_cons.mp hc with h | h
      · rw [h]; decide
      · exact (digit_not_space c (hdig c h)).2.2.2.1)
  refine ⟨hL, ?_, ?_, ?_, ?_, ?_, ?_, ?_, ?_, ?_⟩
  · have e : S = (M ++ [' ']) ++ (path ++ (" HTTP/1.0\r\nContent-Length: ".toList
        ++ (D ++ ("\r\n\r\n".toList ++ b)))) := by
      rw [hS]; simp only [List.append_assoc, List.singleton_append]
    have c1 : clashes "\r\n\r\n".toList (M ++ [' ']) = true := clashes_of_head '\r' _ _ hMsp
    have c2 : clashes "\r\n\r\n".toList path = true :=
      clashes_of_head '\r' _ path (fun c hc h => hp2 (h ▸ hc))
    rw [find_zero, e, findAt_skip_clashes _ _ _ c1, findAt_skip_clashes _ _ _ c2,
      findAt_skip_clashes _ _ _ (by decide), findAt_skip_clashes _ _ _ hD1, findAt_self]
    simp only [Option.map_some', List.length_append, List.length_singleton, hlM]
    ring
  · have e : S = M ++ ([' '] ++ (path ++ (" HTTP/1.0\r\nContent-Length: ".toList
        ++ (D ++ ("\r\n\r\n".toList ++ b))))) := by
      rw [hS]; simp only [List.singleton_append]
    have c1 : clashes " ".toList M = true :=
      clashes_of_head ' ' _ M (fun c hc => (hM c hc).1)
    rw [find_zero, e, findAt_skip_clashes _ _ _ c1]
    have : findAt " ".toList ([' '] ++ (path ++ (" HTTP/1.0\r\nContent-Length: ".toList
        ++ (D ++ ("\r\n\r\n".toList ++ b))))) = some 0 := findAt_self [' '] _
    rw [this]
    simp
  · rw [substr_ok _ _ _ (by omega), hS, List.drop_zero, List.take_left]
  · have e : S = (M ++ [' ']) ++ (path ++ ([' '] ++ ("HTTP/1.0\r\nContent-Length: ".toList
        ++ (D ++ ("\r\n\r\n".toList ++ b))))) := by
      rw [hS]
      have : " HTTP/1.0\r\nContent-Length: ".toList
          = [' '] ++ "HTTP/1.0\r\nContent-Length: ".toList := by decide
      rw [this]
      simp
    have hl : (M ++ [' ']).length = M.length + 1 := by simp
    have c1 : clashes " ".toList path = true :=
      clashes_of_head ' ' _ path (fun c hc h => hp1 (h ▸ hc))
    rw [e, ← hl, find_append_at, findAt_skip_clashes _ _ _ c1]
    have : findAt " ".toList ([' '] ++ ("HTTP/1.0\r\nContent-Length: ".toList
        ++ (D ++ ("\r\n\r\n".toList ++ b)))) = some 0 := findAt_self [' '] _
    rw [this]
    simp
  · have e : S = (M ++ [' ']) ++ (path ++ (" HTTP/1.0\r\nContent-Length: ".toList
        ++ (D ++ ("\r\n\r\n".toList ++ b)))) := by
      rw [hS]; simp only [List.append_assoc, List.singleton_append]
    have hl : (M ++ [' ']).length = M.length + 1 := by simp
    rw [substr_ok _ _ _ (by omega), e, ← hl, List.drop_left, List.take_left]
  · intro hMC hp4
    have e : S = (M ++ [' ']) ++ (path ++ ' ' :: ("HTTP/1.0\r\n".toList
        ++ ("Content-Length:".toList ++ (' ' :: (D ++ ("\r\n\r\n".toList ++ b)))))) := by
      rw [hS]
      have : " HTTP/1.0\r\nContent-Length: ".toList
          = ' ' :: ("HTTP/1.0\r\n".toList ++ ("Content-Length:".toList ++ [' '])) := by decide
      rw [this]
      simp
    have e2 : ' ' :: ("HTTP/1.0\r\n".toList
        ++ ("Content-Length:".toList ++ (' ' :: (D ++ ("\r\n\r\n".toList ++ b)))))
        = " HTTP/1.0\r\n".toList
        ++ ("Content-Length:".toList ++ (' ' :: (D ++ ("\r\n\r\n".toList ++ b)))) := rfl
    rw [find_zero, e, findAt_skip_clashes _ _ _ hMC,
      findAt_skip_noinfix _ _ _ _ hp4 (by decide), e2,
      findAt_skip_clashes _ _ _ (by decide), findAt_self]
    simp only [Option.map_some', List.length_append, List.length_singleton]
    have : " HTTP/1.0\r\n".toList.length = 11 := by decide
    rw [this]
    ring
  · have e : S = (M ++ ' ' :: (path ++ " HTTP/1.0\r\nContent-Length:".toList)) ++
        ((' ' :: D) ++ ("\r\n".toList ++ ("\r\n".toList ++ b))) := by
      rw [hS]
      have h1 : " HTTP/1.0\r\nContent-Length: ".toList
          = " HTTP/1.0\r\nContent-Length:".toList ++ [' '] := by decide
      have h2 : "\r\n\r\n".toList = "\r\n".toList ++ "\r\n".toList := by decide
      rw [h1, h2]
      simp
    have hl : (M ++ ' ' :: (path ++ " HTTP/1.0\r\nContent-Length:".toList)).length
        = M.length + 1 + path.length + 26 := by
      have : " HTTP/1.0\r\nContent-Length:".toList.length = 26 := by decide
      simp only [List.length_append, List.length_cons, this]
      omega
    rw [e, ← hl, find_append_at, findAt_skip_clashes _ _ _ hD2, findAt_self]
    simp only [Option.map_some', List.length_cons]
    ring
  · have e : S = (M ++ ' ' :: (path ++ " HTTP/1.0\r\nContent-Length:".toList)) ++
        ((' ' :: D) ++ ("\r\n".toList ++ ("\r\n".toList ++ b))) := by
      rw [hS]
      have h1 : " HTTP/1.0\r\nContent-Length: ".toList
          = " HTTP/1.0\r\nContent-Length:".toList ++ [' '] := by decide
      have h2 : "\r\n\r\n".toList = "\r\n".toList ++ "\r\n".toList := by decide
      rw [h1, h2]
      simp
    have hl : (M ++ ' ' :: (path ++ " HTTP/1.0\r\nContent-Length:".toList)).length
        = M.length + 1 + path.length + 26 := by
      have : " HTTP/1.0\r\nContent-Length:".toList.length = 26 := by decide
      simp only [List.length_append, List.length_cons, this]
      omega
    rw [substr_ok _ _ _ (by omega), e, ← hl, List.drop_left]
    have : 1 + D.length = (' ' :: D).length := by simp only [List.length_cons]; omega
    rw [this, List.take_left]
  · intro k
    have e : S = (M ++ ' ' :: (path ++ (" HTTP/1.0\r\nContent-Length: ".toList
        ++ (D ++ "\r\n\r\n".toList)))) ++ b := by
      rw [hS]
      simp only [List.append_assoc, List.cons_append]
    have hl : (M ++ ' ' :: (path ++ (" HTTP/1.0\r\nContent-Length: ".toList
        ++ (D ++ "\r\n\r\n".toList)))).length
        = M.length + 1 + path.length + 27 + D.length + 4 := by
      simp only [List.length_append, List.length_cons, hlM, hl2]
      omega
    rw [substr_ok _ _ _ (by omega), e, ← hl, List.drop_left]

theorem findAt_proper_prefix (needle a t : Str) (i : Nat) (h : findAt needle a = some i)
    (hi : i + needle.length = a.length) (ht : t <+: a) (hlt : t.length < a.length) :
    findAt needle t = none := by
  cases hf : findAt needle t with
  | none => rfl
  | some j =>
    obtain ⟨u, hu⟩ := ht
    have h2 := findAt_append needle t u j hf
    rw [hu, h] at h2
    have hb := (findAt_some_bound needle t j hf).1
    simp only [Option.some.injEq] at h2
    omega

theorem request_no_delimiter (t : Str) (h : findAt "\r\n\r\n".toList t = none) :
    HttpRequest.from_sequence t = .ok none := by
  unfold HttpRequest.from_sequence
  rw [find_zero, h]
  simp

/-- The wire format of `fetch`, with the length digits `D` kept apart from the
body that follows. -/
theorem request_parse_get (path D b : Str)
    (hp1 : ' ' ∉ path) (hp2 : '\r' ∉ path)
    (hdig : ∀ c ∈ D, c.isDigit = true)
    (hlen : ("GET".toList ++ (' ' :: (path ++ (" HTTP/1.0\r\nContent-Length: ".toList
      ++ (D ++ ("\r\n\r\n".toList ++ b)))))).length < npos) :
    HttpRequest.from_sequence ("GET".toList ++ (' ' :: (path
      ++ (" HTTP/1.0\r\nContent-Length: ".toList ++ (D ++ ("\r\n\r\n".toList ++ b))))))
      = .ok (some ⟨"GET".toList, path, []⟩) := by
  obtain ⟨hL, G1, G2, G3, G4, G5, -, -, -, -⟩ :=
    request_positions "GET".toList path D b _ (by decide) hp1 hp2 hdig rfl
  rw [hL] at hlen
  have hnp : npos = 2 ^ 64 - 1 := rfl
  have hSZ : SIZE = 2 ^ 64 := rfl
  have hlM : "GET".toList.length = 3 := by decide
  rw [hlM] at hlen G1 G2 G3 G4 G5
  have A4 : addSize 3 1 = 3 + 1 := by decide
  have A5 : subSize (3 + 1 + path.length) (3 + 1) = path.length := by
    rw [subSize_of_le _ _ (by omega) (by omega)]; omega
  have hne : 3 + 1 + path.length + 27 + D.length ≠ npos := by omega
  unfold HttpRequest.from_sequence
  simp only [G1, G2, G3, A4, G4, A5, G5, hne, ne_eq, not_false_eq_true, if_true]

theorem request_parse_post (path D b : Str)
    (hp1 : ' ' ∉ path) (hp2 : '\r' ∉ path) (hp4 : ¬ "Content-Length:".toList <:+: path)
    (hdig : ∀ c ∈ D, c.isDigit = true)
    (hlen : ("POST".toList ++ (' ' :: (path ++ (" HTTP/1.0\r\nContent-Length: ".toList
      ++ (D ++ ("\r\n\r\n".toList ++ b)))))).length < npos) :
    HttpRequest.from_sequence ("POST".toList ++ (' ' :: (path
      ++ (" HTTP/1.0\r\nContent-Length: ".toList ++ (D ++ ("\r\n\r\n".toList ++ b))))))
      = if 5 + path.length + 27 + D.length + 4 + b.length
            ≥ addSize (5 + path.length + 27 + D.length + 4) (toSize (atoi (' ' :: D)))
        then .ok (some ⟨"POST".toList, path, b.take (toSize (atoi (' ' :: D)))⟩)
        else .ok none := by
  obtain ⟨hL, G1, G2, G3, G4, G5, G6, G7, G8, G9⟩ :=
    request_positions "POST".toList path D b _ (by decide) hp1 hp2 hdig rfl
  replace G6 := G6 (by decide) hp4
  rw [hL] at hlen
  have hnp : npos = 2 ^ 64 - 1 := rfl
  have hSZ : SIZE = 2 ^ 64 := rfl
  have hlM : "POST".toList.length = 4 := by decide
  rw [hlM] at hlen G1 G2 G3 G4 G5 G6 G7 G8 G9 hL
  have A0 : addSize (4 + 1 + path.length + 27 + D.length) 4
      = 5 + path.length + 27 + D.length + 4 := by
    rw [addSize_of_lt _ _ (by omega)]
  have A3 : addSize (4 + 1 + path.length + 11) 15 = 4 + 1 + path.length + 26 := by
    rw [addSize_of_lt _ _ (by omega)]
  have A4 : addSize 4 1 = 4 + 1 := by decide
  have A5 : subSize (4 + 1 + path.length) (4 + 1) = path.length := by
    rw [subSize_of_le _ _ (by omega) (by omega)]; omega
  have A6 : subSize (4 + 1 + path.length + 26 + (1 + D.length)) (4 + 1 + path.length + 26)
      = 1 + D.length := by
    rw [subSize_of_le _ _ (by omega) (by omega)]; omega
  have hne : 4 + 1 + path.length + 27 + D.length ≠ npos := by omega
  have G9' : ∀ k, substr ("POST".toList ++ (' ' :: (path
      ++ (" HTTP/1.0\r\nContent-Length: ".toList ++ (D ++ ("\r\n\r\n".toList ++ b))))))
      (5 + path.length + 27 + D.length + 4) k = .ok (b.take k) := by
    intro k
    rw [← G9 k]
  have hmne : ¬ ("POST".toList = "GET".toList) := by decide
  have hL' : ("POST".toList ++ (' ' :: (path
      ++ (" HTTP/1.0\r\nContent-Length: ".toList ++ (D ++ ("\r\n\r\n".toList ++ b)))))).length
      = 5 + path.length + 27 + D.length + 4 + b.length := by
    rw [hL]
  unfold HttpRequest.from_sequence
  simp only [G1, G2, G3, A0, A3, A4, G4, A5, G5, G6, G7, A6, G8, G9', hne, hmne, hL', ne_eq,
    not_false_eq_true, if_true, if_false, ge_iff_le]

theorem fetch_packet_eq (M path body : Str) :
    fetch_packet M path body = M ++ (' ' :: (path ++ (" HTTP/1.0\r\nContent-Length: ".toList
      ++ (decimal body.length ++ ("\r\n\r\n".toList ++ body))))) := by
  unfold fetch_packet
  have h1 : " ".toList = [' '] := rfl
  have h2 : " HTTP/1.0\r\nContent-Length: ".toList
      = " HTTP/1.0\r\n".toList ++ "Content-Length: ".toList := by decide
  rw [h1, h2]
  simp only [List.append_assoc, List.singleton_append, List.cons_append, List.nil_append]

theorem header_prefix_none (M path D t u : Str)
    (hM : ∀ c ∈ M, c ≠ ' ' ∧ c ≠ '\r')
    (hp1 : ' ' ∉ path) (hp2 : '\r' ∉ path)
    (hdig : ∀ c ∈ D, c.isDigit = true)
    (ht : t ++ u = M ++ (' ' :: (path ++ (" HTTP/1.0\r\nContent-Length: ".toList
      ++ (D ++ ("\r\n\r\n".toList ++ [])))))) (hu : u ≠ [])
    (hlen : (t ++ u).length < npos) :
    HttpRequest.from_sequence t = .ok none := by
  obtain ⟨hL, G1, -, -, -, -, -, -, -, -⟩ :=
    request_positions M path D [] (t ++ u) hM hp1 hp2 hdig ht
  have hnp : npos = 2 ^ 64 - 1 := rfl
  have hf := find_found (t ++ u) "\r\n\r\n".toList 0 (by rw [G1]; omega)
  rw [G1, List.drop_zero, Nat.sub_zero] at hf
  have hl2 : "\r\n\r\n".toList.length = 4 := by decide
  apply request_no_delimiter
  apply findAt_proper_prefix _ (t ++ u) t _ hf.2.2
  · rw [hL, hl2]; simp
  · exact List.prefix_append t u
  · have : 0 < u.length := List.length_pos.mpr hu
    simp only [List.length_append]; omega

/-! ## Routing -/

theorem find_handler_from_spec (rx : Regex) (path : Str) :
    ∀ table : List (Str × Nat),
      match table.find? (fun p => rx.regcomp p.1 && (rx.regexec p.1 path).isSome) with
      | some (pattern, handler) =>
        find_handler_from rx path table = handler ∧
        get_arguments_from rx path table
          = collect_arguments path (((rx.regexec pattern path).getD []).drop 1)
      | none => find_handler_from rx path table = NULL ∧ get_arguments_from rx path table = [] := by
  intro table
  induction table with
  | nil => exact ⟨rfl, rfl⟩
  | cons p rest ih =>
    obtain ⟨pattern, handler⟩ := p
    rw [List.find?_cons]
    cases hc : rx.regcomp pattern with
    | false =>
      simp only [hc, Bool.false_and]
      simp only [find_handler_from, get_arguments_from, hc, Bool.false_eq_true, if_false]
      exact ih
    | true =>
      cases he : rx.regexec pattern path with
      | none =>
        simp only [hc, he, Option.isSome_none, Bool.and_false]
        simp only [find_handler_from, get_arguments_from, hc, he, if_true, Option.isSome_none,
          Bool.false_eq_true, if_false]
        exact ih
      | some pm =>
        simp only [hc, he, Option.isSome_some, Bool.and_self]
        simp only [find_handler_from, get_arguments_from, hc, he, if_true, Option.isSome_some,
          Option.getD_some, and_self]

theorem respond_not_found (rx : Regex) (heap : Nat → HttpRequestHandler)
    (self : AsyncHttpServer) (request : HttpRequest)
    (h : self.find_handler rx request.path = NULL) :
    self.respond rx heap request = .ok ⟨404, []⟩ := by
  unfold AsyncHttpServer.respond
  simp only [h, ne_eq, not_true_eq_false, if_false]

theorem server_on_read_not_found (rx : Regex) (heap : Nat → HttpRequestHandler)
    (self : AsyncHttpServer) (request : HttpRequest)
    (accept : Nat → SysResult) (read : Nat → Nat → ReadResult) (B fuel : Nat) (sys : Sys)
    (fd : Int) (hfd : fd ≠ self.fd) (hn : (read 0 B).n < 0)
    (he : (read 0 B).errno.getD sys.errno = EAGAIN)
    (hreq : HttpRequest.from_sequence (self.read_buffers.index fd) = .ok (some request))
    (h : self.find_handler rx request.path = NULL) :
    ∃ server sys2, self.on_read rx heap accept read B (fuel + 1) sys fd
        = some (.ok (server, sys2)) ∧
      server.write_buffers fd = some (HttpResponse.to_sequence ⟨404, []⟩) ∧
      server.loop.events fd = some false ∧ server.loop.handlers fd = some self.addr := by
  have hidx : (self.read_buffers.touch fd).index fd = self.read_buffers.index fd := by
    simp [FdMap.touch, FdMap.index]
  have hresp := respond_not_found rx heap
    { self with read_buffers := self.read_buffers.touch fd } request h
  unfold AsyncHttpServer.on_read
  rw [if_neg hfd]
  unfold AsyncHttpServer.read_loop
  simp only [if_neg (not_lt.mpr (le_of_lt hn)), if_neg (ne_of_lt hn), he, ne_eq,
    not_true_eq_false, if_false, hidx, hreq, hresp]
  refine ⟨_, _, rfl, ?_, ?_, ?_⟩
  · simp [FdMap.set, IOLoop.set_handler]
  · simp [FdMap.set, IOLoop.set_handler]
  · simp [FdMap.set, IOLoop.set_handler]

/-! ## Draining the write buffer of the server -/

theorem index_touch (m : FdMap Str) (fd : Int) : (m.touch fd).index fd = m.index fd := by
  simp [FdMap.touch, FdMap.index]

theorem index_set (m : FdMap Str) (fd : Int) (v : Str) : (m.set fd v).index fd = v := by
  simp [FdMap.set, FdMap.index]

theorem touch_apply (m : FdMap Str) (fd : Int) : (m.touch fd) fd = some (m.index fd) := by
  simp [FdMap.touch, FdMap.index]

theorem server_write_loop (write : Nat → Nat → SysResult) (hw : ∀ k c, (write k c).n ≤ c)
    (fd : Int) :
    ∀ (fuel k : Nat) (self : AsyncHttpServer) (sys : Sys),
      (self.write_buffers.index fd).length < fuel →
      ∃ server sys2 done,
        AsyncHttpServer.on_write_loop write fd fuel k self sys = some (.ok (server, sys2, done)) ∧
        server.loop = self.loop ∧ server.read_buffers = self.read_buffers ∧
        sys2.closed = sys.closed ∧
        ∃ rest, server.write_buffers fd = some rest ∧
          sys2.sent fd ++ rest = sys.sent fd ++ self.write_buffers.index fd ∧
          (done = false ↔ rest ≠ [] ∧ sys2.errno = EAGAIN) := by
  intro fuel
  induction fuel with
  | zero => intro k self sys h; omega
  | succ fuel ih =>
    intro k self sys hfuel
    have hc := hw k (self.write_buffers.index fd).length
    unfold AsyncHttpServer.on_write_loop
    simp only [index_touch]
    by_cases hn : (write k (self.write_buffers.index fd).length).n > 0
    · have hle : (write k (self.write_buffers.index fd).length).n.toNat
          ≤ (self.write_buffers.index fd).length := by omega
      have hpos : 0 < (write k (self.write_buffers.index fd).length).n.toNat := by omega
      simp only [hn, if_true, substrFrom, if_neg (not_lt.mpr hle)]
      obtain ⟨server, sys2, done, hrun, hloop, hrb, hcl, rest, hrest, hsent, hdone⟩ :=
        ih (k + 1)
          { self with
            write_buffers := (self.write_buffers.touch fd).set fd
              ((self.write_buffers.index fd).drop
                (write k (self.write_buffers.index fd).length).n.toNat) }
          (sys.afterWrite fd (self.write_buffers.index fd)
            (write k (self.write_buffers.index fd).length))
          (by simp only [index_set, List.length_drop]; omega)
      refine ⟨server, sys2, done, hrun, hloop, hrb, hcl, rest, hrest, ?_, hdone⟩
      rw [hsent]
      simp only [index_set, Sys.afterWrite, hn, and_self, if_true, List.append_assoc,
        List.take_append_drop]
    · have hsent : (sys.afterWrite fd (self.write_buffers.index fd)
          (write k (self.write_buffers.index fd).length)).sent fd = sys.sent fd := by
        simp [Sys.afterWrite, hn]
      simp only [hn, if_false]
      by_cases he : (sys.afterWrite fd (self.write_buffers.index fd)
          (write k (self.write_buffers.index fd).length)).errno = EAGAIN
      · by_cases hz : (self.write_buffers.index fd).length = 0
        · refine ⟨{ self with write_buffers := self.write_buffers.touch fd },
            sys.afterWrite fd (self.write_buffers.index fd)
              (write k (self.write_buffers.index fd).length), true, ?_,
            rfl, rfl, rfl, self.write_buffers.index fd, touch_apply _ _, by rw [hsent], ?_⟩
          · rw [if_neg (not_not.mpr he), if_pos hz]
          · have : self.write_buffers.index fd = [] := List.length_eq_zero.mp hz
            simp [this]
        · refine ⟨{ self with write_buffers := self.write_buffers.touch fd },
            sys.afterWrite fd (self.write_buffers.index fd)
              (write k (self.write_buffers.index fd).length), false, ?_,
            rfl, rfl, rfl, self.write_buffers.index fd, touch_apply _ _, by rw [hsent], ?_⟩
          · rw [if_neg (not_not.mpr he), if_neg hz]
          · have : self.write_buffers.index fd ≠ [] := fun h => hz (by rw [h]; rfl)
            simp [this, he]
      · refine ⟨{ self with write_buffers := self.write_buffers.touch fd },
          sys.afterWrite fd (self.write_buffers.index fd)
            (write k (self.write_buffers.index fd).length), true, ?_,
          rfl, rfl, rfl, self.write_buffers.index fd, touch_apply _ _, by rw [hsent], ?_⟩
        · rw [if_pos he]
        · simp [he]

theorem server_on_error_closed (self : AsyncHttpServer) (sys : Sys) (fd : Int) :
    (self.on_error sys fd).1.connection_closed (self.on_error sys fd).2 fd ∧
      (self.on_error sys fd).2.sent = sys.sent := by
  unfold AsyncHttpServer.connection_closed AsyncHttpServer.on_error IOLoop.unset_handler
  cases h : self.loop.handlers fd <;> cases h2 : self.loop.events fd <;>
    simp [FdMap.erase, Sys.close, h, h2]

/-! ## The client at end of file -/

theorem client_read_loop_eof (read : Nat → Nat → ReadResult) (hr : ∀ k c, (read k c).n = 0)
    (B : Nat) (fd : Int) :
    ∀ (fuel k : Nat) (self : AsyncHttpClient) (sys : Sys),
      HttpResponse.from_sequence (self.read_buffers.index fd) = .ok none →
      AsyncHttpClient.on_read_loop read B fd fuel k self sys = none := by
  intro fuel
  induction fuel with
  | zero => intro k self sys _; rfl
  | succ fuel ih =>
    intro k self sys h
    unfold AsyncHttpClient.on_read_loop
    simp only [hr, gt_iff_lt, lt_self_iff_false, if_false, if_true, index_touch, h]
    exact ih (k + 1) _ _ (by simpa only [index_touch] using h)

/-! ## A `POST` request whose length header holds no number -/

theorem digitsValue_noDigit (u : Str) (h : startsWithDigit u = false) : digitsValue 0 u = 0 := by
  cases u with
  | nil => rfl
  | cons c cs =>
    simp only [startsWithDigit] at h
    simp [digitsValue, h]

theorem atoi_noNumber (text : Str) (h : noNumber text = true) : atoi text = 0 := by
  unfold noNumber at h
  unfold atoi strtol
  split at h <;>
  · rename_i heq
    simp only [Bool.not_eq_true'] at h
    simp only [heq, digitsValue_noDigit _ h]
    decide

theorem take_findAt_space : ∀ (t : Str),
    (∀ i, findAt " ".toList t = some i → t.take i = t.takeWhile (fun c => c != ' ')) ∧
    (findAt " ".toList t = none → t.takeWhile (fun c => c != ' ') = t) := by
  intro t
  induction t with
  | nil => exact ⟨fun i _ => by simp, fun _ => rfl⟩
  | cons c cs ih =>
    have hp : " ".toList.isPrefixOf (c :: cs) = (' ' == c) := by
      show ([' '] : Str).isPrefixOf (c :: cs) = (' ' == c)
      simp [List.isPrefixOf]
    rw [findAt_cons, hp]
    by_cases hc : c = ' '
    · subst hc
      refine ⟨fun i hi => ?_, fun hi => ?_⟩
      · simp only [beq_self_eq_true, if_true, Option.some.injEq] at hi
        subst hi
        simp
      · simp at hi
    · have hb : (' ' == c) = false := by
        simp only [beq_eq_false_iff_ne, ne_eq]
        exact fun e => hc e.symm
      have hk : (c != ' ') = true := by simp [hc]
      rw [hb]
      simp only [Bool.false_eq_true, if_false]
      refine ⟨fun i hi => ?_, fun hi => ?_⟩
      · cases hf : findAt " ".toList cs with
        | none => rw [hf] at hi; cases hi
        | some j =>
          rw [hf] at hi
          simp only [Option.map_some', Option.some.injEq] at hi
          subst hi
          rw [List.take_succ_cons, List.takeWhile_cons, hk, ih.1 j hf]
          rfl
      · cases hf : findAt " ".toList cs with
        | none =>
          rw [List.takeWhile_cons, hk, ih.2 hf]
          rfl
        | some j => rw [hf] at hi; cases hi

theorem find_cases (s needle : Str) (pos : Nat) :
    find s needle pos = npos ∨
      (pos ≤ find s needle pos ∧ find s needle pos + needle.length ≤ s.length) := by
  by_cases h : find s needle pos = npos
  · exact Or.inl h
  · have := find_found s needle pos h
    exact Or.inr ⟨this.1, this.2.1⟩

/-! ## The claims -/

/-- C1, as amended. For every response whose code is one of 200, 204, 404, 405,
500 and whose body is shorter than `2 ^ 31` bytes, whatever the body holds,
parsing the serialised response gives a response, with the same code and the
same body. -/
theorem response_roundtrip (r : HttpResponse)
    (hc : r.code = 200 ∨ r.code = 204 ∨ r.code = 404 ∨ r.code = 405 ∨ r.code = 500)
    (hb : r.body.length < 2 ^ 31) :
    HttpResponse.from_sequence r.to_sequence = .ok (some r) := by
  obtain ⟨L, hL, h1, h2, h3, h4, h5, h6, h7⟩ := to_sequence_line r hc
  have hD := decimal_length_le r.body.length (by omega)
  have hnp : npos = 2 ^ 64 - 1 := rfl
  have hSZ : SIZE = 2 ^ 64 := rfl
  rw [hL, response_parse L r.code r.body.length r.body h1 h2 h3 h4 h5 h6 (by
    simp only [List.length_append]
    have : "Content-Length: ".toList.length = 16 := by decide
    have : "\r\n\r\n".toList.length = 4 := by decide
    omega)]
  rw [atoi_space_decimal _ hb, toSize_natCast _ (by omega), addSize_of_lt _ _ (by omega),
    if_pos (by omega), List.take_length]

/-- C1 at a body that holds the delimiter, spaces and the header name. -/
theorem response_roundtrip_witness :
    ((404 : Int) = 200 ∨ (404 : Int) = 204 ∨ (404 : Int) = 404 ∨ (404 : Int) = 405
        ∨ (404 : Int) = 500) ∧
      "a\r\n\r\n Content-Length: 77\r\n".toList.length < 2 ^ 31 ∧
      HttpResponse.from_sequence
          (HttpResponse.to_sequence ⟨404, "a\r\n\r\n Content-Length: 77\r\n".toList⟩)
        = .ok (some ⟨404, "a\r\n\r\n Content-Length: 77\r\n".toList⟩) :=
  ⟨by decide, by decide,
    response_roundtrip ⟨404, "a\r\n\r\n Content-Length: 77\r\n".toList⟩ (by decide) (by decide)⟩

/-- A response with code 200 whose body has `2 ^ 31` bytes does not parse
back: the header value `2147483648` is read by `atoi` as `-2147483648`. -/
theorem response_large_body (b : Str) (hb : b.length = 2 ^ 31) :
    HttpResponse.from_sequence (HttpResponse.to_sequence ⟨200, b⟩) = .ok none := by
  obtain ⟨L, hL, h1, h2, h3, h4, h5, h6, h7⟩ := to_sequence_line ⟨200, b⟩ (Or.inl rfl)
  simp only [hb] at hL
  have hD : (decimal (2 ^ 31)).length = 10 := by decide
  have hnp : npos = 2 ^ 64 - 1 := rfl
  have hSZ : SIZE = 2 ^ 64 := rfl
  have hA : toSize (atoi (' ' :: decimal (2 ^ 31))) = 2 ^ 64 - 2 ^ 31 := by decide
  rw [hL, response_parse L 200 (2 ^ 31) _ h1 h2 h3 h4 h5 h6 (by
    simp only [List.length_append, hb, hD]
    have : "Content-Length: ".toList.length = 16 := by decide
    have : "\r\n\r\n".toList.length = 4 := by decide
    omega)]
  rw [hA, hD, hb]
  rw [addSize_of_lt _ _ (by omega), if_neg (by omega)]

/-- C1 as stated fails: a response with code 200 and a body of `2 ^ 31` bytes
is serialised with the header value `2147483648`, which `atoi` reads as
`-2147483648`, and parsing the result returns `NULL`. -/
theorem response_roundtrip_large_body :
    HttpResponse.from_sequence (HttpResponse.to_sequence ⟨200, List.replicate (2 ^ 31) 'a'⟩)
      = .ok none :=
  response_large_body _ (List.length_replicate _ _)

/-- C2, as amended. For a request in the wire format that `fetch` writes, of a
size below `npos` as that of every `std::string`, with a path without space and
CR, and with either the method `GET` and an empty body, or the method `POST`, a
path that does not contain the text `Content-Length:` and a body shorter than
`2 ^ 31` bytes: `from_sequence` returns `NULL` on every proper prefix and, on
the full sequence, a request with exactly that method, path and body. -/
theorem request_prefixes (method path body : Str)
    (hm : (method = "GET".toList ∧ body = []) ∨
      (method = "POST".toList ∧ ¬ "Content-Length:".toList <:+: path ∧ body.length < 2 ^ 31))
    (hp : ∀ c ∈ path, c ≠ ' ' ∧ c ≠ '\r')
    (hlen : (fetch_packet method path body).length < npos) :
    (∀ t, t <+: fetch_packet method path body → t ≠ fetch_packet method path body →
        HttpRequest.from_sequence t = .ok none) ∧
      HttpRequest.from_sequence (fetch_packet method path body)
        = .ok (some ⟨method, path, body⟩) := by
  have hp1 : ' ' ∉ path := fun h => (hp _ h).1 rfl
  have hp2 : '\r' ∉ path := fun h => (hp _ h).2 rfl
  obtain ⟨-, hdig, -⟩ := decimal_spec body.length
  have hnp : npos = 2 ^ 64 - 1 := rfl
  have hSZ : SIZE = 2 ^ 64 := rfl
  rw [fetch_packet_eq] at hlen ⊢
  rcases hm with ⟨hG, hbody⟩ | ⟨hP, hcl, hb⟩
  · subst hG
    subst hbody
    refine ⟨?_, ?_⟩
    · rintro t ⟨u, hu⟩ hne
      have hune : u ≠ [] := by
        rintro rfl
        rw [List.append_nil] at hu
        exact hne hu
      exact header_prefix_none _ path _ t u (by decide) hp1 hp2 hdig hu hune
        (by rw [hu]; exact hlen)
    · exact request_parse_get path _ [] hp1 hp2 hdig hlen
  · subst hP
    have hA : atoi (' ' :: decimal body.length) = body.length := atoi_space_decimal _ hb
    have hlenv : ("POST".toList ++ (' ' :: (path ++ (" HTTP/1.0\r\nContent-Length: ".toList
        ++ (decimal body.length ++ ("\r\n\r\n".toList ++ body)))))).length
        = 5 + path.length + 27 + (decimal body.length).length + 4 + body.length := by
      have h1 : "POST".toList.length = 4 := by decide
      have h2 : " HTTP/1.0\r\nContent-Length: ".toList.length = 27 := by decide
      have h3 : "\r\n\r\n".toList.length = 4 := by decide
      simp only [List.length_append, List.length_cons, h1, h2, h3]
      omega
    rw [hlenv] at hlen
    refine ⟨?_, ?_⟩
    · rintro t ⟨u, hu⟩ hne
      have hune : u ≠ [] := by
        rintro rfl
        rw [List.append_nil] at hu
        exact hne hu
      have hupos : 0 < u.length := List.length_pos.mpr hune
      have htl : t.length + u.length
          = 5 + path.length + 27 + (decimal body.length).length + 4 + body.length := by
        rw [← hlenv, ← hu, List.length_append]
      -- the header with its delimiter
      have hH : ("POST".toList ++ (' ' :: (path ++ (" HTTP/1.0\r\nContent-Length: ".toList
          ++ (decimal body.length ++ ("\r\n\r\n".toList ++ body))))))
          = ("POST".toList ++ (' ' :: (path ++ (" HTTP/1.0\r\nContent-Length: ".toList
          ++ (decimal body.length ++ ("\r\n\r\n".toList ++ [])))))) ++ body := by
        simp
      have hHl : ("POST".toList ++ (' ' :: (path ++ (" HTTP/1.0\r\nContent-Length: ".toList
          ++ (decimal body.length ++ ("\r\n\r\n".toList ++ [])))))).length
          = 5 + path.length + 27 + (decimal body.length).length + 4 := by
        have h1 : "POST".toList.length = 4 := by decide
        have h2 : " HTTP/1.0\r\nContent-Length: ".toList.length = 27 := by decide
        have h3 : "\r\n\r\n".toList.length = 4 := by decide
        simp only [List.length_append, List.length_cons, h1, h2, h3, List.length_nil]
        omega
      rcases Nat.lt_or_ge t.length
        (5 + path.length + 27 + (decimal body.length).length + 4) with hlt | hge
      · -- the prefix ends inside the header
        have hpre : t <+: ("POST".toList ++ (' ' :: (path
            ++ (" HTTP/1.0\r\nContent-Length: ".toList
            ++ (decimal body.length ++ ("\r\n\r\n".toList ++ [])))))) :=
          List.prefix_of_prefix_length_le ⟨u, hu⟩ ⟨body, hH.symm⟩ (by rw [hHl]; omega)
        obtain ⟨v, hv⟩ := hpre
        have hvne : v ≠ [] := by
          rintro rfl
          rw [List.append_nil] at hv
          rw [hv, hHl] at hlt
          omega
        exact header_prefix_none _ path _ t v (by decide) hp1 hp2 hdig hv hvne
          (by rw [hv, hHl]; omega)
      · -- the prefix holds the header and a part of the body
        have hpre : ("POST".toList ++ (' ' :: (path
            ++ (" HTTP/1.0\r\nContent-Length: ".toList
            ++ (decimal body.length ++ ("\r\n\r\n".toList ++ [])))))) <+: t :=
          List.prefix_of_prefix_length_le ⟨body, hH.symm⟩ ⟨u, hu⟩ (by rw [hHl]; omega)
        obtain ⟨b, hb2⟩ := hpre
        have hbl : t.length = 5 + path.length + 27 + (decimal body.length).length + 4
            + b.length := by
          rw [← hb2, List.length_append, hHl]
        have ht : t = "POST".toList ++ (' ' :: (path
            ++ (" HTTP/1.0\r\nContent-Length: ".toList
            ++ (decimal body.length ++ ("\r\n\r\n".toList ++ b))))) := by
          rw [← hb2]; simp
        rw [ht, request_parse_post path _ b hp1 hp2 hcl hdig (by
          rw [← ht]; omega)]
        rw [hA, toSize_natCast _ (by omega), addSize_of_lt _ _ (by omega),
          if_neg (by omega)]
    · rw [request_parse_post path _ body hp1 hp2 hcl hdig (by rw [hlenv]; exact hlen)]
      rw [hA, toSize_natCast _ (by omega), addSize_of_lt _ _ (by omega),
        if_pos (by omega), List.take_length]

/-- C2 at the request `POST /echo` with body `hello`. -/
theorem request_prefixes_witness :
    ((¬ "Content-Length:".toList <:+: "/echo".toList ∧ "hello".toList.length < 2 ^ 31) ∧
      (∀ c ∈ "/echo".toList, c ≠ ' ' ∧ c ≠ '\r') ∧
      (fetch_packet "POST".toList "/echo".toList "hello".toList).length < npos) ∧
    ((∀ t, t <+: fetch_packet "POST".toList "/echo".toList "hello".toList →
        t ≠ fetch_packet "POST".toList "/echo".toList "hello".toList →
        HttpRequest.from_sequence t = .ok none) ∧
      HttpRequest.from_sequence (fetch_packet "POST".toList "/echo".toList "hello".toList)
        = .ok (some ⟨"POST".toList, "/echo".toList, "hello".toList⟩)) :=
  ⟨⟨⟨by decide, by decide⟩, by decide, by decide⟩,
    request_prefixes "POST".toList "/echo".toList "hello".toList
      (Or.inr ⟨rfl, by decide, by decide⟩) (by decide) (by decide)⟩

/-- A `POST` request to `/` whose body has `2 ^ 31` bytes parses to `NULL`. -/
theorem request_large_body (b : Str) (hb : b.length = 2 ^ 31) :
    HttpRequest.from_sequence (fetch_packet "POST".toList "/".toList b) = .ok none := by
  have hD : (decimal (2 ^ 31)).length = 10 := by decide
  have hnp : npos = 2 ^ 64 - 1 := rfl
  have hSZ : SIZE = 2 ^ 64 := rfl
  have hA : toSize (atoi (' ' :: decimal (2 ^ 31))) = 2 ^ 64 - 2 ^ 31 := by decide
  obtain ⟨-, hdig, -⟩ := decimal_spec (2 ^ 31)
  have h1 : "POST".toList.length = 4 := by decide
  have h2 : " HTTP/1.0\r\nContent-Length: ".toList.length = 27 := by decide
  have h3 : "\r\n\r\n".toList.length = 4 := by decide
  have h4 : "/".toList.length = 1 := by decide
  rw [fetch_packet_eq, hb,
    request_parse_post "/".toList _ _ (by decide) (by decide) (by decide) hdig (by
      simp only [List.length_append, List.length_cons, h1, h2, h3, h4, hD, hb]
      omega)]
  rw [hA, hD, h4, hb, addSize_of_lt _ _ (by omega), if_neg (by omega)]

/-- C2 as stated fails in two ways. With the path `/Content-Length:1`, which
holds no space, CR or LF, the parser takes the length from the request line and
returns the body `h` instead of `hello`. With a body of `2 ^ 31` bytes the
header value overflows `int` and the full sequence parses to `NULL`. -/
theorem request_prefixes_counterexample :
    HttpRequest.from_sequence
        (fetch_packet "POST".toList "/Content-Length:1".toList "hello".toList)
      = .ok (some ⟨"POST".toList, "/Content-Length:1".toList, "h".toList⟩) ∧
    HttpRequest.from_sequence
        (fetch_packet "POST".toList "/".toList (List.replicate (2 ^ 31) 'a'))
      = .ok none :=
  ⟨by decide, request_large_body _ (List.length_replicate _ _)⟩

/-- C3 fails on the inputs it names: on `POST ` followed by the delimiter,
`HttpRequest::from_sequence` calls `substr` with start position 14 on a string
of 9 bytes, which raises `std::out_of_range`; `HttpResponse::from_sequence`
does the same on the delimiter alone, a string of 4 bytes. -/
theorem from_sequence_raises :
    HttpRequest.from_sequence "POST \r\n\r\n".toList = .error .out_of_range ∧
    HttpResponse.from_sequence "\r\n\r\n".toList = .error .out_of_range ∧
    addSize (find "POST \r\n\r\n".toList "Content-Length:".toList 0) 15 = 14 ∧
    "POST \r\n\r\n".toList.length = 9 := by
  decide

/-- C4, as amended. For every sequence (of a size below `npos`) that contains
the delimiter, starts with `POST ` and contains `Content-Length:`, where the
text after the first `Content-Length:` up to the next line end holds no number:
`atoi` reads the length as 0 and `from_sequence` returns a request, not `NULL`,
with method `POST`, the path that follows the method up to the next space, and
an empty body. -/
theorem post_noNumber (s : Str) (hlen : s.length < npos)
    (hdelim : "\r\n\r\n".toList <:+: s) (hpost : "POST ".toList <+: s)
    (hcl : "Content-Length:".toList <:+: s)
    (hnum : noNumber (lengthText s) = true) :
    HttpRequest.from_sequence s
      = .ok (some ⟨"POST".toList, (s.drop 5).takeWhile (fun c => c != ' '), []⟩) := by
  have hnp : npos = 2 ^ 64 - 1 := rfl
  have hSZ : SIZE = 2 ^ 64 := rfl
  -- the delimiter
  have h0 := (find_ne_npos_iff s _ hlen).mpr hdelim
  have h0b := (find_found s _ 0 h0).2.1
  have hl2 : "\r\n\r\n".toList.length = 4 := by decide
  rw [hl2] at h0b
  -- the method
  obtain ⟨rest, hrest⟩ := hpost
  have hs5 : 5 ≤ s.length := by
    rw [← hrest, List.length_append]
    have : "POST ".toList.length = 5 := by decide
    omega
  have F1 : find s " ".toList 0 = 4 := by
    rw [find_zero, ← hrest, findAt_append _ "POST ".toList rest 4 (by decide)]
  have F2 : substr s 0 4 = .ok "POST".toList := by
    rw [substr_ok _ _ _ (by omega), ← hrest, List.drop_zero,
      List.take_append_of_le_length (by decide)]
    decide
  -- the header
  have h3 := (find_ne_npos_iff s _ hlen).mpr hcl
  have h3b := (find_found s _ 0 h3).2.1
  have hl15 : "Content-Length:".toList.length = 15 := by decide
  rw [hl15] at h3b
  have A3 : addSize (find s "Content-Length:".toList 0) 15
      = find s "Content-Length:".toList 0 + 15 := addSize_of_lt _ _ (by omega)
  have A4 : subSize (find s "\r\n".toList (find s "Content-Length:".toList 0 + 15))
      (find s "Content-Length:".toList 0 + 15)
      = find s "\r\n".toList (find s "Content-Length:".toList 0 + 15)
        - (find s "Content-Length:".toList 0 + 15) := by
    rcases find_cases s "\r\n".toList (find s "Content-Length:".toList 0 + 15) with h | h
    · rw [h, subSize_of_le _ _ (by omega) (by omega)]
    · rw [subSize_of_le _ _ h.1 (by omega)]
  have F3 : substr s (find s "Content-Length:".toList 0 + 15)
      (find s "\r\n".toList (find s "Content-Length:".toList 0 + 15)
        - (find s "Content-Length:".toList 0 + 15)) = .ok (lengthText s) := by
    rw [substr_ok _ _ _ h3b]
    rfl
  have F4 : atoi (lengthText s) = 0 := atoi_noNumber _ hnum
  have A0 : addSize (find s "\r\n\r\n".toList 0) 4 = find s "\r\n\r\n".toList 0 + 4 :=
    addSize_of_lt _ _ (by omega)
  have A5 : addSize (find s "\r\n\r\n".toList 0 + 4) (toSize 0)
      = find s "\r\n\r\n".toList 0 + 4 := by
    have : toSize 0 = 0 := by decide
    rw [this, addSize_of_lt _ _ (by omega)]
  -- the path
  have A6 : addSize 4 1 = 5 := by decide
  have F5 : substr s 5 (subSize (find s " ".toList 5) 5)
      = .ok ((s.drop 5).takeWhile (fun c => c != ' ')) := by
    rw [substr_ok _ _ _ hs5]
    apply congrArg Except.ok
    unfold find
    rw [if_neg (by omega)]
    cases hf : findAt " ".toList (s.drop 5) with
    | none =>
      simp only
      rw [(take_findAt_space _).2 hf, subSize_of_le _ _ (by omega) (by omega)]
      apply List.take_of_length_le
      simp only [List.length_drop]
      omega
    | some j =>
      have hb := (findAt_some_bound _ _ _ hf).1
      simp only [List.length_drop] at hb
      simp only
      rw [subSize_of_le _ _ (by omega) (by omega), Nat.add_sub_cancel_left,
        (take_findAt_space _).1 j hf]
  have F6 : substr s (find s "\r\n\r\n".toList 0 + 4) (toSize 0) = .ok [] := by
    rw [substr_ok _ _ _ h0b]
    have : toSize 0 = 0 := by decide
    rw [this, List.take_zero]
  have hmne : ¬ ("POST".toList = "GET".toList) := by decide
  unfold HttpRequest.from_sequence
  simp only [h0, ne_eq, not_false_eq_true, if_true, F1, F2, hmne, if_false, A3, A4, F3, F4, A0,
    A5, A6, F5, F6, h0b, ge_iff_le]

/-- C4 at a request whose header value is the word `none`, with body bytes
already in the buffer. -/
theorem post_noNumber_witness :
    ("POST /up HTTP/1.0\r\nContent-Length: none\r\n\r\nhello".toList.length < npos ∧
      "\r\n\r\n".toList <:+: "POST /up HTTP/1.0\r\nContent-Length: none\r\n\r\nhello".toList ∧
      "POST ".toList <+: "POST /up HTTP/1.0\r\nContent-Length: none\r\n\r\nhello".toList ∧
      "Content-Length:".toList
        <:+: "POST /up HTTP/1.0\r\nContent-Length: none\r\n\r\nhello".toList ∧
      noNumber (lengthText "POST /up HTTP/1.0\r\nContent-Length: none\r\n\r\nhello".toList)
        = true) ∧
    HttpRequest.from_sequence "POST /up HTTP/1.0\r\nContent-Length: none\r\n\r\nhello".toList
      = .ok (some ⟨"POST".toList, "/up".toList, []⟩) :=
  ⟨⟨by decide, by decide, by decide, by decide, by decide⟩,
    post_noNumber "POST /up HTTP/1.0\r\nContent-Length: none\r\n\r\nhello".toList (by decide)
      (by decide) (by decide) (by decide) (by decide)⟩

/-- C4 as stated fails: a `POST` request with the delimiter and the header
value `abc` is not answered with `NULL` but parsed, with an empty body. -/
theorem post_noNumber_counterexample :
    HttpRequest.from_sequence "POST /x HTTP/1.0\r\nContent-Length: abc\r\n\r\n".toList
      = .ok (some ⟨"POST".toList, "/x".toList, []⟩) := by
  decide

/-- C5. For every code `c` and body `b`, `to_sequence` is `HTTP/1.0 `, the
status text, a line end, `Content-Length: `, the decimal length of `b`, the
delimiter, and `b` unchanged; the status text is that of the four mapped codes,
and `500 Internal Server Error` for every other code. -/
theorem to_sequence_wire_format (c : Int) (b : Str) :
    HttpResponse.to_sequence ⟨c, b⟩ =
      "HTTP/1.0 ".toList ++ statusText c ++ "\r\n".toList ++ "Content-Length: ".toList
        ++ decimal b.length ++ "\r\n\r\n".toList ++ b := by
  unfold HttpResponse.to_sequence statusText
  by_cases h1 : c = 200
  · subst h1; rfl
  by_cases h2 : c = 204
  · subst h2; rfl
  by_cases h3 : c = 404
  · subst h3; rfl
  by_cases h4 : c = 405
  · subst h4; rfl
  have hl : ([(200, "200 OK"), (204, "204 No Content"), (404, "404 Not Found"),
      (405, "405 Method Not Allowed")] : List (Int × String)).lookup c = none := by
    have e1 : (c == 200) = false := by simpa using h1
    have e2 : (c == 204) = false := by simpa using h2
    have e3 : (c == 404) = false := by simpa using h3
    have e4 : (c == 405) = false := by simpa using h4
    simp only [List.lookup, e1, e2, e3, e4]
  simp only [h1, h2, h3, h4, if_false, hl]
  rfl

/-- C6. Let `write` return at most the count it is given. Then
`AsyncHttpServer::on_write` returns, and: when all bytes of the outbound buffer
were written, the connection is closed; otherwise the connection is closed too,
or the loop is as before, the errno left by the last `write` is `EAGAIN`, the
outbound buffer is not empty and, appended to the bytes written, gives back the
original buffer. -/
theorem server_on_write_closes (write : Nat → Nat → SysResult)
    (hw : ∀ k c, (write k c).n ≤ c)
    (self : AsyncHttpServer) (sys : Sys) (fd : Int) (fuel : Nat)
    (hfuel : (self.write_buffers.index fd).length < fuel) :
    ∃ server sys2, self.on_write write fuel sys fd = some (.ok (server, sys2)) ∧
      (sys2.sent fd = sys.sent fd ++ self.write_buffers.index fd →
        server.connection_closed sys2 fd) ∧
      (server.connection_closed sys2 fd ∨
        (server.loop = self.loop ∧ sys2.closed = sys.closed ∧ sys2.errno = EAGAIN ∧
          ∃ rest, rest ≠ [] ∧ server.write_buffers fd = some rest ∧
            sys2.sent fd ++ rest = sys.sent fd ++ self.write_buffers.index fd)) := by
  obtain ⟨server, sys2, done, hrun, hloop, hrb, hcl, rest, hrest, hsent, hdone⟩ :=
    server_write_loop write hw fd fuel 0 self sys hfuel
  unfold AsyncHttpServer.on_write
  rw [hrun]
  cases done with
  | true =>
    have hc := server_on_error_closed server sys2 fd
    refine ⟨_, _, rfl, fun _ => hc.1, Or.inl hc.1⟩
  | false =>
    have hd := hdone.mp rfl
    refine ⟨server, sys2, rfl, ?_, Or.inr ⟨hloop, hcl, hd.2, rest, hd.1, hrest, hsent⟩⟩
    intro hall
    rw [hall] at hsent
    have h2 : rest = [] := by simpa using hsent
    exact absurd h2 hd.1

/-- The sample `write` returns at most the count it is given. -/
theorem sampleWrite_le (k c : Nat) : (sampleWrite k c).n ≤ c := by
  unfold sampleWrite
  split
  · simp
  · show (-1 : Int) ≤ c
    omega

/-- C6 at the buffer `hello`, of which two bytes are written before the socket
reports "try again". -/
theorem server_on_write_closes_witness :
    ((∀ k c, (sampleWrite k c).n ≤ c) ∧
      ((AsyncHttpServer.sample [] [] "hello".toList).write_buffers.index 7).length < 6) ∧
    ∃ server sys2,
      (AsyncHttpServer.sample [] [] "hello".toList).on_write sampleWrite 6 (Sys.start 0) 7
        = some (.ok (server, sys2)) ∧
      (sys2.sent 7 = (Sys.start 0).sent 7
          ++ (AsyncHttpServer.sample [] [] "hello".toList).write_buffers.index 7 →
        server.connection_closed sys2 7) ∧
      (server.connection_closed sys2 7 ∨
        (server.loop = (AsyncHttpServer.sample [] [] "hello".toList).loop ∧
          sys2.closed = (Sys.start 0).closed ∧ sys2.errno = EAGAIN ∧
          ∃ rest, rest ≠ [] ∧ server.write_buffers 7 = some rest ∧
            sys2.sent 7 ++ rest = (Sys.start 0).sent 7
              ++ (AsyncHttpServer.sample [] [] "hello".toList).write_buffers.index 7)) :=
  ⟨⟨sampleWrite_le, by decide⟩,
    server_on_write_closes sampleWrite sampleWrite_le
      (AsyncHttpServer.sample [] [] "hello".toList) (Sys.start 0) 7 6 (by decide)⟩

/-- C7 fails. When every `read` returns 0, as it does at end of file, and the
inbound buffer does not parse, `AsyncHttpClient::on_read` does not reach a
`break`: no number of iterations makes it return, so nothing is erased and the
descriptor is not closed. -/
theorem client_on_read_eof_spins (read : Nat → Nat → ReadResult)
    (hr : ∀ k c, (read k c).n = 0) (B : Nat)
    (self : AsyncHttpClient) (sys : Sys) (fd : Int)
    (h : HttpResponse.from_sequence (self.read_buffers.index fd) = .ok none) (fuel : Nat) :
    self.on_read read B fuel sys fd = none := by
  unfold AsyncHttpClient.on_read
  rw [client_read_loop_eof read hr B fd fuel 0 self sys h]

/-- C7 at a response cut off after its status line, for a million iterations. -/
theorem client_on_read_eof_spins_witness :
    ((∀ k c, (readEof k c).n = 0) ∧
      HttpResponse.from_sequence
        ((AsyncHttpClient.sample (some "HTTP/1.0 200 OK\r\n".toList) []).read_buffers.index 7)
        = .ok none) ∧
    (AsyncHttpClient.sample (some "HTTP/1.0 200 OK\r\n".toList) []).on_read readEof 1024
      1000000 (Sys.start 0) 7 = none :=
  ⟨⟨fun _ _ => rfl, by decide⟩,
    client_on_read_eof_spins readEof (fun _ _ => rfl) 1024
      (AsyncHttpClient.sample (some "HTTP/1.0 200 OK\r\n".toList) []) (Sys.start 0) 7
      (by decide) 1000000⟩

/-- C8 fails. With `errno` left at `EAGAIN` by an earlier call, the client
writes the whole buffer `abc`; the next `write`, on the empty buffer, returns 0
and leaves `errno` as it was. `AsyncHttpClient::on_write` then returns with the
descriptor still registered for write events and without an inbound buffer.
The same calls with `errno` at 0 on entry do switch the descriptor to read
events and create the empty inbound buffer. -/
theorem client_on_write_no_switch :
    (∃ client sys2,
      (AsyncHttpClient.sample none "abc".toList).on_write sampleWriteAll 5 (Sys.start EAGAIN) 7
        = some (.ok (client, sys2)) ∧
      sys2.sent 7 = "abc".toList ∧ client.write_buffers 7 = some [] ∧
      client.loop.events 7 = some false ∧ client.read_buffers 7 = none) ∧
    (∃ client sys2,
      (AsyncHttpClient.sample none "abc".toList).on_write sampleWriteAll 5 (Sys.start 0) 7
        = some (.ok (client, sys2)) ∧
      sys2.sent 7 = "abc".toList ∧ client.write_buffers 7 = some [] ∧
      client.loop.events 7 = some true ∧ client.read_buffers 7 = some []) := by
  constructor
  · refine ⟨_, _, rfl, ?_, ?_, ?_, ?_⟩ <;> decide
  · refine ⟨_, _, rfl, ?_, ?_, ?_, ?_⟩ <;> decide

/-- C9, as amended. With "the pattern compiles and matches the path" taken from
the regex engine: `find_handler` returns the handler of the first pair in
registration order whose pattern matches, and `get_arguments` takes its captures
from that same pair; without a matching pair they return `NULL` and no
argument. `find_handler` returns `NULL` exactly when no pattern matches or the
first matching pair was registered with a null handler, and `on_read` then
answers a parsed request with the response of code 404. -/
theorem find_handler_first_match (rx : Regex) (self : AsyncHttpServer) (path : Str) :
    (match self.handlers.find? (fun p => rx.regcomp p.1 && (rx.regexec p.1 path).isSome) with
      | some (pattern, handler) =>
        self.find_handler rx path = handler ∧
        self.get_arguments rx path
          = collect_arguments path (((rx.regexec pattern path).getD []).drop 1)
      | none => self.find_handler rx path = NULL ∧ self.get_arguments rx path = []) ∧
    (self.find_handler rx path = NULL ↔
      ∀ p, self.handlers.find? (fun p => rx.regcomp p.1 && (rx.regexec p.1 path).isSome)
        = some p → p.2 = NULL) ∧
    (∀ (heap : Nat → HttpRequestHandler) (accept : Nat → SysResult)
      (read : Nat → Nat → ReadResult) (B fuel : Nat) (sys : Sys) (fd : Int) (method body : Str),
      fd ≠ self.fd → (read 0 B).n < 0 → (read 0 B).errno.getD sys.errno = EAGAIN →
      HttpRequest.from_sequence (self.read_buffers.index fd)
        = .ok (some ⟨method, path, body⟩) →
      self.find_handler rx path = NULL →
      ∃ server sys2, self.on_read rx heap accept read B (fuel + 1) sys fd
          = some (.ok (server, sys2)) ∧
        server.write_buffers fd = some (HttpResponse.to_sequence ⟨404, []⟩) ∧
        server.loop.events fd = some false ∧ server.loop.handlers fd = some self.addr) := by
  have hspec := find_handler_from_spec rx path self.handlers
  refine ⟨hspec, ?_, ?_⟩
  · cases hf : self.handlers.find? (fun p => rx.regcomp p.1 && (rx.regexec p.1 path).isSome) with
    | none =>
      rw [hf] at hspec
      exact ⟨fun _ p hp => (by cases hp), fun _ => hspec.1⟩
    | some p =>
      rw [hf] at hspec
      obtain ⟨pattern, handler⟩ := p
      simp only at hspec
      constructor
      · intro h q hq
        cases hq
        rw [← hspec.1]
        exact h
      · intro h
        have := h (pattern, handler) rfl
        simp only at this
        show find_handler_from rx path self.handlers = NULL
        rw [hspec.1, this]
  · intro heap accept read B fuel sys fd method body hfd hn he hreq hnull
    exact server_on_read_not_found rx heap self ⟨method, path, body⟩ accept read B fuel sys fd
      hfd hn he hreq hnull

/-- C9 at a server whose only pattern does not match the requested path
`/zzz`: the request is answered with code 404. -/
theorem find_handler_first_match_witness :
    (((7 : Int) ≠ (AsyncHttpServer.sample [("^/a$".toList, 11)]
          "GET /zzz HTTP/1.0\r\n\r\n".toList []).fd ∧
      (readAgain 0 1024).n < 0 ∧
      (readAgain 0 1024).errno.getD (Sys.start 0).errno = EAGAIN ∧
      HttpRequest.from_sequence ((AsyncHttpServer.sample [("^/a$".toList, 11)]
          "GET /zzz HTTP/1.0\r\n\r\n".toList []).read_buffers.index 7)
        = .ok (some ⟨"GET".toList, "/zzz".toList, []⟩) ∧
      (AsyncHttpServer.sample [("^/a$".toList, 11)]
          "GET /zzz HTTP/1.0\r\n\r\n".toList []).find_handler sampleRegex "/zzz".toList
        = NULL)) ∧
    ∃ server sys2,
      (AsyncHttpServer.sample [("^/a$".toList, 11)]
          "GET /zzz HTTP/1.0\r\n\r\n".toList []).on_read sampleRegex
        (fun _ => HttpRequestHandler.base) acceptAgain readAgain 1024 (0 + 1) (Sys.start 0) 7
          = some (.ok (server, sys2)) ∧
        server.write_buffers 7 = some (HttpResponse.to_sequence ⟨404, []⟩) ∧
        server.loop.events 7 = some false ∧
        server.loop.handlers 7 = some (AsyncHttpServer.sample [("^/a$".toList, 11)]
          "GET /zzz HTTP/1.0\r\n\r\n".toList []).addr :=
  ⟨⟨by decide, by decide, by decide, by decide, by decide⟩,
    (find_handler_first_match sampleRegex (AsyncHttpServer.sample [("^/a$".toList, 11)]
      "GET /zzz HTTP/1.0\r\n\r\n".toList []) "/zzz".toList).2.2
      (fun _ => HttpRequestHandler.base) acceptAgain readAgain 1024 0 (Sys.start 0) 7
      "GET".toList [] (by decide) (by decide) (by decide) (by decide) (by decide)⟩

/-- C9 as stated fails: after `add_handler` with a null handler pointer the
pattern of the only pair matches the path `/a`, and `find_handler` returns
`NULL` all the same. -/
theorem find_handler_null_handler :
    ((AsyncHttpServer.sample [] [] []).add_handler "^/a$".toList NULL).find_handler
        sampleRegex "/a".toList = NULL ∧
    ∃ p ∈ ((AsyncHttpServer.sample [] [] []).add_handler "^/a$".toList NULL).handlers,
      (sampleRegex.regcomp p.1 && (sampleRegex.regexec p.1 "/a".toList).isSome) = true := by
  decide

/-- C10 fails. From the table built by `add_handler` with `^/a$` at handler 11
and then `^/b$` at handler 22, `remove_handler` with `^/a$` removes the first
pair and returns 22, the handler of the pair that followed it, not the handler
11 it removed. -/
theorem remove_handler_returns_next :
    ((((AsyncHttpServer.sample [] [] []).add_handler "^/a$".toList 11).add_handler
        "^/b$".toList 22).remove_handler "^/a$".toList).2 = 22 ∧
    ((((AsyncHttpServer.sample [] [] []).add_handler "^/a$".toList 11).add_handler
        "^/b$".toList 22).remove_handler "^/a$".toList).1.handlers
      = [("^/b$".toList, 22)] := by
  decide

end Httpcpp
